import Mathlib

/-!
# Verification of the zac-mono gateway/agent core

A shallow embedding, in Lean 4, of the parts of the `zac-mono` repository
(python) that the specification's claims are about:

* the hashline `read`/`edit`/`write`/`bash` tools (`packages/agent/src/agent/tools.py`),
* the streaming tool-call delta merge, retry policy, compaction and turn loop
  of the agent client (`packages/agent/src/agent/client.py`),
* the event model and its wire serialization (`packages/agent/src/agent/events.py`),
* the gateway protocol codec (`packages/gateway/src/gateway/protocol.py`).

Pure python functions become Lean functions on `List Char` / `String`;
the event-streaming turn loop becomes a fuel-indexed interpreter over an
oracle describing the completion backend, the abort flag, the steer queue
and the tool registry.  Machine integers are `Nat` with explicit masks.
-/

set_option maxRecDepth 10000

namespace Zac

/-! ## JSON-like values (the result of `json.loads`) -/

/-- A parsed JSON value, the shallow counterpart of what `json.loads`
returns in the python sources. -/
inductive JValue where
  | null : JValue
  | bool (b : Bool) : JValue
  | num (n : Int) : JValue
  | str (s : String) : JValue
  | arr (xs : List JValue) : JValue
  | obj (kvs : List (String × JValue)) : JValue

/-- `d.get(key)` on a parsed JSON object: first binding of `key`, if any. -/
def JValue.lookup (kvs : List (String × JValue)) (key : String) : Option JValue :=
  match kvs with
  | [] => none
  | (k, v) :: rest => if k = key then some v else JValue.lookup rest key

/-! ## Tool results

`ToolResult` from `tools.py`: `output: str`, `is_error: bool = False`. -/

structure ToolResult where
  output : String
  isError : Bool := false
  deriving Repr, DecidableEq

/-! ## CRC32 and the line hash (`tools.py`, `_hash_line`)

The python source hashes a line as
`format(zlib.crc32(content.encode()) & 0xFFFF, 'x')[:2]`:
the zlib CRC-32 of the UTF-8 encoding of the line, masked to 16 bits,
written in lowercase hex without leading zeros, truncated to the first
two characters. -/

/-- UTF-8 encoding of a single unicode code point, as bytes
(the encoding `str.encode()` applies per character). -/
def utf8EncodeChar (c : Char) : List Nat :=
  let n := c.toNat
  if n < 0x80 then [n]
  else if n < 0x800 then
    [0xC0 + n / 0x40, 0x80 + n % 0x40]
  else if n < 0x10000 then
    [0xE0 + n / 0x1000, 0x80 + (n / 0x40) % 0x40, 0x80 + n % 0x40]
  else
    [0xF0 + n / 0x40000, 0x80 + (n / 0x1000) % 0x40, 0x80 + (n / 0x40) % 0x40,
      0x80 + n % 0x40]

/-- UTF-8 encoding of a string given as a list of characters. -/
def utf8Encode (cs : List Char) : List Nat :=
  cs.flatMap utf8EncodeChar

/-- One step of the bitwise zlib CRC-32: process the lowest bit of the
working register. -/
def crc32Bit (c : Nat) : Nat :=
  if c % 2 = 1 then (c / 2) ^^^ 0xEDB88320 else c / 2

/-- Feed one byte into the zlib CRC-32 register (8 bit steps). -/
def crc32Byte (c : Nat) (b : Nat) : Nat :=
  let c := c ^^^ (b % 256)
  crc32Bit (crc32Bit (crc32Bit (crc32Bit (crc32Bit (crc32Bit (crc32Bit (crc32Bit c)))))))

/-- `zlib.crc32` of a byte sequence: init `0xFFFFFFFF`, byte-wise update,
final complement. -/
def crc32 (bytes : List Nat) : Nat :=
  (bytes.foldl crc32Byte 0xFFFFFFFF) ^^^ 0xFFFFFFFF

/-- Lowercase hex digit for a value `< 16`. -/
def hexDigit (d : Nat) : Char :=
  if d < 10 then Char.ofNat (48 + d) else Char.ofNat (87 + d)

/-- Lowercase hexadecimal rendering of a `Nat`, no leading zeros
(python `format(n, 'x')`); `0` renders as `"0"`. -/
def toHexAux : Nat → Nat → List Char
  | 0, _ => []
  | _ + 1, 0 => []
  | fuel + 1, n => toHexAux fuel (n / 16) ++ [hexDigit (n % 16)]

def toHex (n : Nat) : List Char :=
  if n = 0 then ['0'] else toHexAux (n + 1) n

/-- `_hash_line(content)` from `tools.py`: first two lowercase hex chars
of the 16 low bits of the zlib CRC-32 of the UTF-8 encoded content. -/
def hashLine (content : List Char) : List Char :=
  (toHex (crc32 (utf8Encode content) &&& 0xFFFF)).take 2

/-! ## Line splitting and stripping

`str.splitlines(keepends=True)` as used by both `ReadTool.execute` and
`EditTool.execute` (we model the line terminators `\n`, `\r\n` and `\r`),
and `line.rstrip('\n\r')`. -/

def splitLinesAux : List Char → List Char → List (List Char)
  | [], acc => if acc.isEmpty then [] else [acc.reverse]
  | '\n' :: rest, acc => (acc.reverse ++ ['\n']) :: splitLinesAux rest []
  | '\r' :: '\n' :: rest, acc => (acc.reverse ++ ['\r', '\n']) :: splitLinesAux rest []
  | '\r' :: rest, acc => (acc.reverse ++ ['\r']) :: splitLinesAux rest []
  | c :: rest, acc => splitLinesAux rest (c :: acc)

/-- `text.splitlines(keepends=True)`. -/
def splitLines (text : List Char) : List (List Char) :=
  splitLinesAux text []

/-- `line.rstrip('\n\r')`. -/
def rstripNl (cs : List Char) : List Char :=
  (cs.reverse.dropWhile (fun c => c = '\n' || c = '\r')).reverse

/-- `line.endswith('\n')`. -/
def endsWithNl (cs : List Char) : Bool :=
  cs.getLast? = some '\n'

/-! ## Decimal rendering of line numbers (python `f"{i}"`) -/

def natDigitsAux : Nat → Nat → List Char
  | 0, _ => []
  | fuel + 1, n => if n < 10 then [hexDigit n] else natDigitsAux fuel (n / 10) ++ [hexDigit (n % 10)]

/-- Decimal digits of `n`, most significant first. -/
def natDigits (n : Nat) : List Char :=
  natDigitsAux (n + 1) n

def isDigitChar (c : Char) : Bool :=
  48 ≤ c.toNat && c.toNat ≤ 57

def isHexChar (c : Char) : Bool :=
  isDigitChar c || (97 ≤ c.toNat && c.toNat ≤ 102)

/-- Numeric value of a digit string (used by `int(match.group(1))`). -/
def digitsToNat (ds : List Char) : Nat :=
  ds.foldl (fun a c => a * 10 + (c.toNat - 48)) 0

/-! ## The Read tool (`ReadTool.execute`)

A read renders each line of the slice as `f"{i}:{hash_val}|{content}"`
where `content = line.rstrip('\n\r')` and `hash_val = _hash_line(content)`. -/

/-- The numbered-entry line the Read tool emits for (1-based) line `i`. -/
def readEntryLine (i : Nat) (line : List Char) : List Char :=
  natDigits i ++ [':'] ++ hashLine (rstripNl line) ++ ['|'] ++ rstripNl line

/-- The `<line>:<hash>` reference contained in a read entry for line `i`. -/
def readRefString (i : Nat) (line : List Char) : List Char :=
  natDigits i ++ [':'] ++ hashLine (rstripNl line)

/-- All `(line number, hash, stripped content)` triples a full read
(default `offset = 1`, no `limit`) emits for a file. -/
def readRefs (text : List Char) : List (Nat × List Char × List Char) :=
  (splitLines text).enum.map (fun p => (p.1 + 1, hashLine (rstripNl p.2), rstripNl p.2))

/-- Outcome of `Path(file_path).read_text()`: the exception kinds the
tools catch. -/
inductive FsRead where
  | ok (text : List Char) : FsRead
  | notFound : FsRead
  | osErr (msg : String) : FsRead

/-- Per-file result entry of `ReadTool.execute` (the value stored in
`results[file_path]`). -/
def readFileEntry (filePath : String) (file : FsRead) (offset : Nat) (limit : Option Nat) :
    String :=
  if filePath = "" then "Error: Empty file path provided."
  else
    match file with
    | .notFound => "Error: File not found: " ++ filePath
    | .osErr e => "Error reading file: " ++ e
    | .ok text =>
      let start := offset - 1
      let lines := (splitLines text).drop start
      let lines := match limit with
        | some l => lines.take l
        | none => lines
      String.mk (List.intercalate ['\n']
        (lines.enum.map (fun p => readEntryLine (start + 1 + p.1) p.2)))

/-- `ReadTool.execute`.  `dump` stands for `json.dumps(results, indent=2)`
(its exact text is irrelevant to every claim); `fs` is the file system. -/
def readExecute (dump : List (String × String) → String) (fs : String → FsRead)
    (filePaths : List String) (offset : Nat) (limit : Option Nat) : ToolResult :=
  if filePaths = [] then { output := "No file_paths provided.", isError := true }
  else
    { output := dump (filePaths.map (fun p => (p, readFileEntry p (fs p) offset limit))) }

/-! ## The Edit tool (`EditTool.execute`) -/

/-- The regex `^(\d+):([0-9a-f]+)$` applied to a candidate `line:hash`
reference: a non-empty digit run, a colon, a non-empty hex run. -/
def parseLineHash (cs : List Char) : Option (Nat × List Char) :=
  let ds := cs.takeWhile isDigitChar
  let rest := cs.dropWhile isDigitChar
  match rest with
  | ':' :: hs =>
    if ds ≠ [] ∧ hs ≠ [] ∧ hs.all isHexChar then some (digitsToNat ds, hs) else none
  | _ => none

/-- `str.split('-')` (all occurrences, empties kept). -/
def splitOnDashAux : List Char → List Char → List (List Char)
  | [], acc => [acc.reverse]
  | '-' :: rest, acc => acc.reverse :: splitOnDashAux rest []
  | c :: rest, acc => splitOnDashAux rest (c :: acc)

def splitOnDash (cs : List Char) : List (List Char) :=
  splitOnDashAux cs []

/-- The single-line search loop of `EditTool.execute`: first index `i`
whose stripped content is non-empty with `i + 1 = n` and matching hash. -/
def findSingleAux (n : Nat) (h : List Char) : List (List Char) → Nat → Option Nat
  | [], _ => none
  | line :: rest, i =>
    let s := rstripNl line
    if s ≠ [] ∧ i + 1 = n ∧ hashLine s = h then some i
    else findSingleAux n h rest (i + 1)

def findSingleIdx (lines : List (List Char)) (n : Nat) (h : List Char) : Option Nat :=
  findSingleAux n h lines 0

/-- The range search loop of `EditTool.execute`: scans forward, records
the start anchor, and stops (break) at the end anchor. -/
def findRangeAux (sl : Nat) (sh : List Char) (el : Nat) (eh : List Char) :
    List (List Char) → Nat → Option Nat → Option Nat × Option Nat
  | [], _, startIdx => (startIdx, none)
  | line :: rest, i, startIdx =>
    let s := rstripNl line
    if s = [] then findRangeAux sl sh el eh rest (i + 1) startIdx
    else
      let startIdx' := if startIdx = none ∧ i + 1 = sl ∧ hashLine s = sh then some i else startIdx
      if startIdx' ≠ none ∧ i + 1 = el ∧ hashLine s = eh then (startIdx', some i)
      else findRangeAux sl sh el eh rest (i + 1) startIdx'

def findRangeIdx (lines : List (List Char)) (sl : Nat) (sh : List Char)
    (el : Nat) (eh : List Char) : Option Nat × Option Nat :=
  findRangeAux sl sh el eh lines 0 none

/-- The replacement block used on the range path (`new_text + '\n'` iff
`new_text` does not end in a newline, the start index is in bounds and the
start line ends in a newline). -/
def rangeReplacement (lines : List (List Char)) (startIdx : Nat) (newText : List Char) :
    List Char :=
  if ¬ endsWithNl newText ∧ startIdx < lines.length ∧
      endsWithNl (lines.getD startIdx []) then newText ++ ['\n'] else newText

/-- `EditTool.execute`.  Returns the tool result together with the content
written back (`none` when nothing is written).  `writeErr` stands for an
`OSError` raised by `path.write_text`. -/
def editExecute (filePath : String) (hashRef : List Char) (newText : List Char)
    (file : FsRead) (writeErr : Option String) : ToolResult × Option (List Char) :=
  if filePath = "" then ({ output := "No file_path provided.", isError := true }, none)
  else if hashRef = [] then
    ({ output := "No hash provided. Use format \x27line:hash\x27 (e.g., \x2742:ab\x27) or \x27start:end\x27 range.",
       isError := true }, none)
  else if newText = [] then ({ output := "No new_text provided.", isError := true }, none)
  else
    match file with
    | .notFound => ({ output := "File not found: " ++ filePath, isError := true }, none)
    | .osErr e => ({ output := "Error reading file: " ++ e, isError := true }, none)
    | .ok content =>
      let lines := splitLines content
      let newLines? : Except ToolResult (List (List Char)) :=
        if ('-' ∈ hashRef) ∧ (':' ∈ hashRef) then
          match splitOnDash hashRef with
          | [p1, p2] =>
            if (':' ∈ p1) ∧ (':' ∈ p2) then
              match parseLineHash p1, parseLineHash p2 with
              | some (sl, sh), some (el, eh) =>
                match findRangeIdx lines sl sh el eh with
                | (none, _) =>
                  .error { output := "Start hash " ++ String.mk p1 ++ " not found in file.",
                           isError := true }
                | (some _, none) =>
                  .error { output := "End hash " ++ String.mk p2 ++ " not found in file.",
                           isError := true }
                | (some s, some e) =>
                  if e < s then
                    .error { output := "End hash appears before start hash.", isError := true }
                  else
                    .ok (lines.take s ++ [rangeReplacement lines s newText] ++ lines.drop (e + 1))
              | _, _ => .error { output := "Invalid hash range format.", isError := true }
            else
              .error { output := "Invalid range format. Use \x27line:hash-line:hash\x27.",
                       isError := true }
          | _ =>
            .error { output := "Invalid hash range format. Use \x27line:hash\x27 or \x27start:end\x27.",
                     isError := true }
        else if (':' ∈ hashRef) then
          match parseLineHash hashRef with
          | none => .error { output := "Invalid hash format. Use \x27line:hash\x27.", isError := true }
          | some (n, h) =>
            match findSingleIdx lines n h with
            | none =>
              .error { output := "Hash " ++ String.mk hashRef ++
                         " not found in file. File may have changed since read.",
                       isError := true }
            | some idx =>
              .ok (lines.set idx (newText ++ if endsWithNl (lines.getD idx []) then ['\n'] else []))
        else
          .error { output := "Invalid hash format. Use \x27line:hash\x27 or \x27start:end\x27.",
                   isError := true }
      match newLines? with
      | .error r => (r, none)
      | .ok newLines =>
        match writeErr with
        | some e => ({ output := "Error writing file: " ++ e, isError := true }, none)
        | none => ({ output := "Edit applied successfully." }, some newLines.flatten)

/-! ## Streaming tool-call deltas (`AgentClient.prompt`, lines 218-233)

The turn loop accumulates `delta.tool_calls` entries into
`tool_calls_by_index`, a dict keyed by the delta's positional `index`. -/

/-- `tc_delta.function`: optional name and arguments fragments. -/
structure FnDelta where
  name : Option String
  arguments : Option String
  deriving Repr, DecidableEq

/-- One entry of `delta.tool_calls`. -/
structure TCDelta where
  index : Nat
  id : Option String
  fn : Option FnDelta
  deriving Repr, DecidableEq

/-- The accumulated value `tool_calls_by_index[idx]`. -/
structure TCAcc where
  id : String
  name : String
  arguments : String
  deriving Repr, DecidableEq

/-- Python truthiness of an optional string (`if tc_delta.id:`). -/
def truthy (o : Option String) : Bool :=
  o.getD "" ≠ ""

/-- The in-place updates applied to an existing entry: a truthy `id`
replaces, truthy `function.name` and `function.arguments` are appended. -/
def applyDelta (tc : TCAcc) (d : TCDelta) : TCAcc :=
  let tc := if truthy d.id then { tc with id := d.id.getD "" } else tc
  match d.fn with
  | none => tc
  | some f =>
    let tc := if truthy f.name then { tc with name := tc.name ++ f.name.getD "" } else tc
    if truthy f.arguments then { tc with arguments := tc.arguments ++ f.arguments.getD "" } else tc

/-- Insertion-ordered association list standing for the python dict. -/
def alookup : List (Nat × TCAcc) → Nat → Option TCAcc
  | [], _ => none
  | (k, v) :: rest, key => if k = key then some v else alookup rest key

def amodify (f : TCAcc → TCAcc) : List (Nat × TCAcc) → Nat → List (Nat × TCAcc)
  | [], _ => []
  | (k, v) :: rest, key => if k = key then (k, f v) :: rest else (k, v) :: amodify f rest key

/-- Processing one `tc_delta`: create the entry on first sight of its
index (id primed with `tc_delta.id or ""`), then apply the updates. -/
def mergeStep (m : List (Nat × TCAcc)) (d : TCDelta) : List (Nat × TCAcc) :=
  let m := if (alookup m d.index).isNone then
      m ++ [(d.index, { id := d.id.getD "", name := "", arguments := "" })]
    else m
  amodify (fun tc => applyDelta tc d) m d.index

/-- Folding an arrival-ordered sequence of tool-call deltas into the map. -/
def mergeAll (ds : List TCDelta) : List (Nat × TCAcc) :=
  ds.foldl mergeStep []

/-- `sorted(tool_calls_by_index)`: extract the accumulated calls in
ascending index order (insertion sort on the keys). -/
def insertByKey (p : Nat × TCAcc) : List (Nat × TCAcc) → List (Nat × TCAcc)
  | [] => [p]
  | q :: rest => if p.1 ≤ q.1 then p :: q :: rest else q :: insertByKey p rest

def sortedToolCalls (m : List (Nat × TCAcc)) : List TCAcc :=
  (m.foldr insertByKey []).map (fun p => p.2)

/-- The `function.name` fragment a delta carries (empty when absent). -/
def fnNameFrag (d : TCDelta) : String :=
  match d.fn with
  | some f => f.name.getD ""
  | none => ""

/-- The `function.arguments` fragment a delta carries. -/
def fnArgsFrag (d : TCDelta) : String :=
  match d.fn with
  | some f => f.arguments.getD ""
  | none => ""

/-- Reference merge of the deltas of a single index, stated directly:
last truthy id, concatenated name fragments, concatenated argument
fragments in arrival order. -/
def specMergeOne (ds : List TCDelta) : TCAcc :=
  { id := ((ds.filterMap (fun d => if truthy d.id then d.id else none)).getLast?).getD ""
    name := (ds.map fnNameFrag).foldl (· ++ ·) ""
    arguments := (ds.map fnArgsFrag).foldl (· ++ ·) "" }

/-! ## Retry policy (`AgentClient._create_stream_with_retry`) -/

/-- What the k-th `chat.completions.create` call does. -/
inductive AttemptResult where
  | success : AttemptResult
  | statusError (code : Nat) (msg : String) : AttemptResult
  | connError (msg : String) : AttemptResult
  deriving Repr, DecidableEq

/-- Result of `_create_stream_with_retry`: a stream (opened on the given
0-based attempt), an immediate `AgentError "API error (<code>): <msg>"`,
or `AgentError "Max retries (3) exceeded: <last_error>"`. -/
inductive RetryOutcome where
  | stream (attempt : Nat) : RetryOutcome
  | apiError (code : Nat) (msg : String) : RetryOutcome
  | maxRetries (lastError : Option String) : RetryOutcome
  deriving Repr, DecidableEq

/-- `_RETRYABLE_STATUS_CODES = {429, 500, 502, 503}`. -/
def retryableStatusCodes : List Nat := [429, 500, 502, 503]

def maxRetriesConst : Nat := 3

def attemptMsg : AttemptResult → Option String
  | .success => none
  | .statusError _ m => some m
  | .connError m => some m

/-- The retry loop; `sleeps` records the seconds slept between attempts,
`backoff` starts at 1 and doubles, capped at 30. -/
def retryGo (attempts : Nat → AttemptResult) :
    Nat → Nat → Nat → Option String → List Nat → RetryOutcome × List Nat
  | 0, _, _, lastError, sleeps => (.maxRetries lastError, sleeps)
  | remaining + 1, attempt, backoff, _, sleeps =>
    let next := fun (lastError : Option String) =>
      if attempt < maxRetriesConst - 1 then
        retryGo attempts remaining (attempt + 1) (min (backoff * 2) 30) lastError (sleeps ++ [backoff])
      else
        retryGo attempts remaining (attempt + 1) backoff lastError sleeps
    match attempts attempt with
    | .success => (.stream attempt, sleeps)
    | .statusError c m =>
      if c ∉ retryableStatusCodes then (.apiError c m, sleeps) else next (some m)
    | .connError m => next (some m)

/-- `_create_stream_with_retry` over an oracle for the attempts. -/
def createStreamWithRetry (attempts : Nat → AttemptResult) : RetryOutcome × List Nat :=
  retryGo attempts maxRetriesConst 0 1 none []

/-- An attempt outcome the loop retries on: a transport error or a status
in `{429, 500, 502, 503}`. -/
def retryableAttempt : AttemptResult → Prop
  | .success => False
  | .statusError c _ => c ∈ retryableStatusCodes
  | .connError _ => True

instance : DecidablePred retryableAttempt := fun a =>
  match a with
  | .success => inferInstanceAs (Decidable False)
  | .statusError _ _ => inferInstanceAs (Decidable (_ ∈ _))
  | .connError _ => inferInstanceAs (Decidable True)

/-! ## Events (`events.py`)

`AgentEvent` is a pydantic model with a type tag and defaulted fields;
`to_dict` emits, per variant, exactly the fields listed in its `match`.
`args` values are modelled as strings (only string-valued argument
entries are ever inspected by the code under verification). -/

inductive EventType where
  | turnStart | textDelta | toolStart | toolUpdate | toolEnd | turnEnd | agentEnd
  | error | compactionStart | compactionEnd
  | canvasUpdate | canvasScreenshot | canvasDismiss | modelInfo
  deriving Repr, DecidableEq

structure AgentEvent where
  type : EventType
  delta : String := ""
  toolName : String := ""
  toolCallId : String := ""
  args : List (String × String) := []
  result : String := ""
  partialResult : String := ""
  isError : Bool := false
  message : String := ""
  summary : String := ""
  tokensBefore : Nat := 0
  html : String := ""
  url : String := ""
  imageData : String := ""
  deriving Repr, DecidableEq

/-- `AgentEvent.to_dict`. -/
def toDict (e : AgentEvent) : List (String × JValue) :=
  match e.type with
  | .turnStart => [("type", .str "turn_start")]
  | .textDelta => [("type", .str "text_delta"), ("delta", .str e.delta)]
  | .toolStart =>
    [("type", .str "tool_start"), ("tool_name", .str e.toolName),
     ("tool_call_id", .str e.toolCallId),
     ("args", .obj (e.args.map (fun p => (p.1, JValue.str p.2))))]
  | .toolUpdate =>
    [("type", .str "tool_update"), ("tool_call_id", .str e.toolCallId),
     ("tool_name", .str e.toolName), ("partial_result", .str e.partialResult)]
  | .toolEnd =>
    [("type", .str "tool_end"), ("tool_call_id", .str e.toolCallId),
     ("tool_name", .str e.toolName), ("result", .str e.result),
     ("is_error", .bool e.isError)]
  | .turnEnd => [("type", .str "turn_end")]
  | .agentEnd => [("type", .str "agent_end")]
  | .error => [("type", .str "error"), ("message", .str e.message)]
  | .compactionStart => [("type", .str "compaction_start")]
  | .compactionEnd =>
    [("type", .str "compaction_end"), ("summary", .str e.summary),
     ("tokens_before", .num e.tokensBefore)]
  | .canvasUpdate =>
    [("type", .str "canvas_update")] ++
      (if e.html ≠ "" then [("html", JValue.str e.html)] else []) ++
      (if e.url ≠ "" then [("url", JValue.str e.url)] else [])
  | .canvasScreenshot => [("type", .str "canvas_screenshot"), ("image_data", .str e.imageData)]
  | .canvasDismiss => [("type", .str "canvas_dismiss")]
  | .modelInfo => [("type", .str "model_info")]

/-! ## Protocol codec (`protocol.py`, `ClientMessage.from_json`) -/

structure ClientMessage where
  type : String
  message : String := ""
  deriving Repr, DecidableEq

/-- Python `str()` of the offending `type` value, as interpolated into
the `Unknown message type` error (container renderings are never reached
by any claim). -/
def pyStr : Option JValue → String
  | none => "None"
  | some .null => "None"
  | some (.bool true) => "True"
  | some (.bool false) => "False"
  | some (.num n) => toString n
  | some (.str s) => s
  | some (.arr _) => ""
  | some (.obj _) => ""

/-- The message types `from_json` accepts
(`("prompt", "steer", "abort", "context_request")` in the source). -/
def acceptedClientTypes : List String := ["prompt", "steer", "abort", "context_request"]

/-- `ClientMessage.from_json` given the result of `json.loads`
(`.error e` stands for a `json.JSONDecodeError` with text `e`). -/
def clientMessageFromJson (parsed : Except String JValue) : Except String ClientMessage :=
  match parsed with
  | .error e => .error ("Invalid JSON: " ++ e)
  | .ok v =>
    match v with
    | .obj kvs =>
      match JValue.lookup kvs "type" with
      | some (.str t) =>
        if t ∈ acceptedClientTypes then
          let message := match JValue.lookup kvs "message" with
            | some (.str m) => m
            | _ => ""
          if (t = "prompt" ∨ t = "steer") ∧ message = "" then
            .error ("\x27" ++ t ++ "\x27 requires a \x27message\x27 field")
          else
            .ok { type := t, message := message }
        else
          .error ("Unknown message type: " ++ t)
      | other => .error ("Unknown message type: " ++ pyStr other)
    | _ => .error "Message must be a JSON object"

/-! ## Conversation messages (`client.py`)

The conversation is a list of role-tagged dicts: `{"role": "user",
"content"}`, `{"role": "assistant", ["content"], ["tool_calls"]}` (content
key present iff non-empty text accumulated, tool_calls present iff
non-empty), `{"role": "tool", "tool_call_id", "content"}`. -/

structure ToolCallMsg where
  id : String
  name : String
  arguments : String
  deriving Repr, DecidableEq

inductive Msg where
  | user (content : String) : Msg
  | assistant (content : Option String) (toolCalls : List ToolCallMsg) : Msg
  | toolMsg (callId : String) (content : String) : Msg
  deriving Repr, DecidableEq

/-- `msg["role"] in ("user", "assistant")`. -/
def isUA : Msg → Bool
  | .user _ => true
  | .assistant _ _ => true
  | .toolMsg _ _ => false

/-! ## Compaction (`_find_cut_point`, `_compact`)

`est m` stands for `len(json.dumps(m)) // _CHARS_PER_TOKEN`, the
per-message token estimate the cut-point walk accumulates. -/

def keepRecentTokens : Nat := 20000

/-- The inner loop of `_find_cut_point`: first index `j ≥ i` whose role
is user or assistant; `cut_index` stays `0` when none exists. -/
def firstUAGo : List Msg → Nat → Nat
  | [], _ => 0
  | m :: rest, j => if isUA m then j else firstUAGo rest (j + 1)

def firstUAFrom (msgs : List Msg) (i : Nat) : Nat :=
  firstUAGo (msgs.drop i) i

/-- The outer loop of `_find_cut_point`, walking indices `k-1, …, 0` and
accumulating the per-message estimates. -/
def findCutAux (est : Msg → Nat) (msgs : List Msg) : Nat → Nat → Nat
  | 0, _ => 0
  | k + 1, acc =>
    let acc := acc + est (msgs.getD k (.user ""))
    if acc ≥ keepRecentTokens then firstUAFrom msgs k else findCutAux est msgs k acc

/-- `_find_cut_point`. -/
def findCutPoint (est : Msg → Nat) (msgs : List Msg) : Nat :=
  findCutAux est msgs msgs.length 0

/-- Estimated tokens of the suffix `msgs[i:]` (a direct description, used
to characterize the walk). -/
def suffixTokens (est : Msg → Nat) (msgs : List Msg) (i : Nat) : Nat :=
  ((msgs.drop i).map est).sum

/-- Greatest `k' < k` satisfying `p`, by downward search. -/
def lastSat (p : Nat → Bool) : Nat → Option Nat
  | 0 => none
  | k + 1 => if p k then some k else lastSat p k

/-- Specification-level cut point: the walk stops at the greatest index
whose suffix holds at least 20 000 estimated tokens, then takes the first
user/assistant message at or after it. -/
def cutPointSpec (est : Msg → Nat) (msgs : List Msg) : Nat :=
  match lastSat (fun i => keepRecentTokens ≤ suffixTokens est msgs i) msgs.length with
  | none => 0
  | some i => firstUAFrom msgs i

def compactPlaceholder : String :=
  "(Nothing to compact â€” context is small enough)"

def compactAck : String :=
  "Understood. I have the context from our previous conversation. How can I help?"

def summaryUserText (summary : String) : String :=
  "[Previous conversation summary]\n" ++ summary

/-- `_compact`.  `tokensBefore` stands for `self._estimate_tokens()`;
`summarize old` is the non-streaming completion call over the prefix,
returning `response.choices[0].message.content` (`.error` models a raised
exception, which `_compact` propagates before touching the conversation). -/
def compactModel (est : Msg → Nat) (tokensBefore : Nat)
    (summarize : List Msg → Except String (Option String)) (msgs : List Msg) :
    Except String (String × Nat × List Msg) :=
  let cut := findCutPoint est msgs
  if cut = 0 then .ok (compactPlaceholder, tokensBefore, msgs)
  else
    match summarize (msgs.take cut) with
    | .error e => .error e
    | .ok content =>
      let summary := match content with
        | some c => if c = "" then "No summary generated." else c
        | none => "No summary generated."
      .ok (summary, tokensBefore,
        [Msg.user (summaryUserText summary), Msg.assistant (some compactAck) []] ++ msgs.drop cut)

/-! ## The turn loop (`AgentClient.prompt`)

The loop is interpreted against an oracle (`LoopEnv`) describing the
environment it interacts with: the abort flag sampled at each of its
checkpoints, the steer queue drained at the top of each iteration, the
stream each `_create_stream_with_retry` call produces, the tool registry,
`json.loads` on argument blobs, and the token-estimation inputs. -/

/-- A streamed chunk: `chunk.choices[0]` if any, with its delta fields
(`delta.tool_calls` of `None` is the empty list). -/
structure ChoiceDelta where
  content : Option String
  toolCalls : List TCDelta
  finishReason : Option String
  deriving Repr

structure Chunk where
  choice : Option ChoiceDelta
  deriving Repr

/-- A successfully opened stream: its chunks, then optionally a transport
error raised while reading the next one. -/
structure StreamSpec where
  chunks : List Chunk
  failAfter : Option String

/-- What `tool.execute(args)` does: return a result or raise. -/
inductive ToolOutcome where
  | ok (r : ToolResult) : ToolOutcome
  | exc (msg : String) : ToolOutcome

structure LoopEnv where
  /-- `self._abort_event.is_set()` at the t-th check. -/
  abort : Nat → Bool
  /-- steer messages drained at the top of iteration k (FIFO). -/
  steers : Nat → List String
  /-- outcome of the k-th `_create_stream_with_retry` call
  (`.error` is a raised `AgentError`). -/
  streams : Nat → Except String StreamSpec
  /-- `self._tools.get(name)`. -/
  tools : String → Option (List (String × String) → ToolOutcome)
  /-- `json.loads` on an argument blob (`none` = parse failure). -/
  parseArgs : String → Option (List (String × String))
  /-- `len(json.dumps(msg))` for a conversation message. -/
  charLen : Msg → Nat
  /-- `len(self._system_prompt) + len(json.dumps(self._tools.schemas()))`. -/
  baseChars : Nat
  /-- `_MODEL_CONTEXT_SIZES.get(self._model, 128000)`. -/
  contextWindow : Nat
  /-- the summarization completion `_compact` performs. -/
  summarize : List Msg → Except String (Option String)

/-- `self._estimate_tokens()`. -/
def estimateTokens (env : LoopEnv) (msgs : List Msg) : Nat :=
  (env.baseChars + (msgs.map env.charLen).sum) / 4

/-- `self._should_compact()` (`int(context_window * 0.8)` is exact for
the context sizes involved). -/
def shouldCompact (env : LoopEnv) (msgs : List Msg) : Bool :=
  estimateTokens env msgs > env.contextWindow * 4 / 5

/-- `args.get(key)` on the parsed argument dict. -/
def argsGet : List (String × String) → String → Option String
  | [], _ => none
  | (k, v) :: rest, key => if k = key then some v else argsGet rest key

/-- How the stream-consumption loop ended. -/
inductive StreamStatus where
  | aborted : StreamStatus
  | failed (msg : String) : StreamStatus
  | completed : StreamStatus
  deriving Repr, DecidableEq

structure StreamOut where
  events : List AgentEvent
  parts : List String
  tcMap : List (Nat × TCAcc)
  finish : Option String
  ckpt : Nat
  status : StreamStatus

/-- The `text_delta` events a chunk's content fragment yields
(`if delta.content:` — only a truthy fragment is emitted). -/
def contentEvents (c : Option String) : List AgentEvent :=
  match c with
  | some s => if s ≠ "" then [{ type := .textDelta, delta := s }] else []
  | none => []

/-- `content_parts` after a chunk (a truthy fragment is appended). -/
def contentParts (parts : List String) (c : Option String) : List String :=
  match c with
  | some s => if s ≠ "" then parts ++ [s] else parts
  | none => parts

/-- `finish_reason` after a chunk (`if choice.finish_reason:`). -/
def updateFinish (finish : Option String) (fr : Option String) : Option String :=
  match fr with
  | some s => if s ≠ "" then some s else finish
  | none => finish

/-- The `async for chunk in stream` loop: abort is checked before each
chunk is processed; non-empty content fragments are buffered and emitted
as `text_delta`; tool-call deltas are folded into the index map; a truthy
`finish_reason` is recorded; a transport error after the chunks ends the
stream with `failed`. -/
def consumeChunks (env : LoopEnv) :
    List Chunk → Option String → Nat → List String → List (Nat × TCAcc) → Option String →
    StreamOut
  | [], failAfter, ckpt, parts, tcMap, finish =>
    match failAfter with
    | some m => ⟨[], parts, tcMap, finish, ckpt, .failed m⟩
    | none => ⟨[], parts, tcMap, finish, ckpt, .completed⟩
  | chunk :: rest, failAfter, ckpt, parts, tcMap, finish =>
    if env.abort ckpt then ⟨[], parts, tcMap, finish, ckpt + 1, .aborted⟩
    else
      match chunk.choice with
      | none => consumeChunks env rest failAfter (ckpt + 1) parts tcMap finish
      | some choice =>
        let out := consumeChunks env rest failAfter (ckpt + 1)
          (contentParts parts choice.content) (choice.toolCalls.foldl mergeStep tcMap)
          (updateFinish finish choice.finishReason)
        { out with events := contentEvents choice.content ++ out.events }

inductive ToolsStatus where
  | aborted : ToolsStatus
  | completed : ToolsStatus
  deriving Repr, DecidableEq

structure ToolsOut where
  events : List AgentEvent
  msgs : List Msg
  ckpt : Nat
  status : ToolsStatus

/-- The canvas UI events emitted after a successful canvas tool call. -/
def canvasEvents (args : List (String × String)) (imageData : String) : List AgentEvent :=
  match argsGet args "action" with
  | some "render" => [{ type := .canvasUpdate, html := (argsGet args "html").getD "" }]
  | some "navigate" => [{ type := .canvasUpdate, url := (argsGet args "url").getD "" }]
  | some "screenshot" => [{ type := .canvasScreenshot, imageData := imageData }]
  | some "dismiss" => [{ type := .canvasDismiss }]
  | _ => []

/-- The `tool_start` event for one call. -/
def toolStartEvent (tc : TCAcc) (args : List (String × String)) : AgentEvent :=
  { type := .toolStart, toolName := tc.name, toolCallId := tc.id, args := args }

/-- The `tool_end` event for one call. -/
def toolEndEvent (tc : TCAcc) (resultText : String) (isErr : Bool) : AgentEvent :=
  { type := .toolEnd, toolName := tc.name, toolCallId := tc.id,
    result := resultText, isError := isErr }

/-- `tool.execute(args)` with unknown-tool and raised-exception handling:
the `(result_text, is_error)` pair. -/
def toolResultPair (env : LoopEnv) (tc : TCAcc) (args : List (String × String)) :
    String × Bool :=
  match env.tools tc.name with
  | none => ("Unknown tool: " ++ tc.name, true)
  | some f =>
    match f args with
    | .ok r => (r.output, r.isError)
    | .exc m => ("Tool execution error: " ++ m, true)

/-- The `for tc in sorted_tool_calls` execution loop: abort checked
before each call; unknown tools and raised exceptions become error
results; each result is appended as a tool message. -/
def execToolCalls (env : LoopEnv) :
    List TCAcc → List Msg → Nat → ToolsOut
  | [], msgs, ckpt => ⟨[], msgs, ckpt, .completed⟩
  | tc :: rest, msgs, ckpt =>
    if env.abort ckpt then ⟨[], msgs, ckpt + 1, .aborted⟩
    else
      let args := (env.parseArgs tc.arguments).getD []
      let isErr := (toolResultPair env tc args).2
      let isShot := tc.name = "canvas" ∧ isErr = false ∧
        argsGet args "action" = some "screenshot"
      let imageData := if isShot then (toolResultPair env tc args).1 else ""
      let resultText := if isShot then "Screenshot captured." else (toolResultPair env tc args).1
      let uiEvs := if tc.name = "canvas" ∧ isErr = false then canvasEvents args imageData else []
      let out := execToolCalls env rest (msgs ++ [.toolMsg tc.id resultText]) (ckpt + 1)
      { out with events :=
          [toolStartEvent tc args, toolEndEvent tc resultText isErr] ++ uiEvs ++ out.events }

/-- Assistant message synthesized from the accumulated stream state. -/
def mkAssistantMsg (parts : List String) (tcs : List TCAcc) : Msg :=
  let contentText := String.join parts
  .assistant (if contentText = "" then none else some contentText)
    (tcs.map (fun tc => ⟨tc.id, tc.name, tc.arguments⟩))

/-- The compaction step at the top of an iteration: its events and the
possibly compacted conversation. -/
def compactionStep (env : LoopEnv) (msgs : List Msg) : List AgentEvent × List Msg :=
  if shouldCompact env msgs then
    match compactModel (fun m => env.charLen m / 4) (estimateTokens env msgs)
        env.summarize msgs with
    | .ok (summary, tokensBefore, msgs') =>
      ([{ type := .compactionStart }, { type := .compactionEnd, summary := summary, tokensBefore := tokensBefore }], msgs')
    | .error e =>
      ([{ type := .compactionStart },
        { type := .compactionEnd, summary := "", tokensBefore := 0, message := "Compaction failed: " ++ e }], msgs)
  else ([], msgs)

/-- The `while True` body of `prompt()`, with `fuel` bounding the number
of iterations (`none` = fuel exhausted before the loop returned). -/
def runPromptLoop (env : LoopEnv) :
    Nat → Nat → Nat → List Msg → Option (List AgentEvent × List Msg)
  | 0, _, _, _ => none
  | fuel + 1, iter, ckpt, msgs =>
    let msgs := msgs ++ (env.steers iter).map Msg.user
    if env.abort ckpt then
      some ([{ type := .turnEnd }, { type := .agentEnd }], msgs)
    else
      let cs := compactionStep env msgs
      let cEvents := cs.1
      let msgs := cs.2
      match env.streams iter with
      | .error e =>
        some (cEvents ++ [{ type := .error, message := e }, { type := .agentEnd }], msgs)
      | .ok stream =>
        let so := consumeChunks env stream.chunks stream.failAfter (ckpt + 1) [] [] none
        match so.status with
        | .aborted =>
          some (cEvents ++ so.events ++ [{ type := .turnEnd }, { type := .agentEnd }], msgs)
        | .failed m =>
          some (cEvents ++ so.events ++
            [{ type := .error, message := "Stream error: " ++ m }, { type := .agentEnd }], msgs)
        | .completed =>
          let sortedTCs := sortedToolCalls so.tcMap
          let msgs := msgs ++ [mkAssistantMsg so.parts sortedTCs]
          if sortedTCs = [] ∨ so.finish ≠ some "tool_calls" then
            some (cEvents ++ so.events ++ [{ type := .turnEnd }, { type := .agentEnd }], msgs)
          else
            let tout := execToolCalls env sortedTCs msgs so.ckpt
            match tout.status with
            | .aborted =>
              some (cEvents ++ so.events ++ tout.events ++
                [{ type := .turnEnd }, { type := .agentEnd }], tout.msgs)
            | .completed =>
              match runPromptLoop env fuel (iter + 1) tout.ckpt tout.msgs with
              | none => none
              | some (evs, m) =>
                some (cEvents ++ so.events ++ tout.events ++
                  [{ type := .turnEnd }, { type := .turnStart }] ++ evs, m)

/-- `prompt(message)`: append the user message, emit `turn_start`, run
the loop. -/
def runPrompt (env : LoopEnv) (fuel : Nat) (msgs0 : List Msg) (message : String) :
    Option (List AgentEvent × List Msg) :=
  match runPromptLoop env fuel 0 0 (msgs0 ++ [.user message]) with
  | none => none
  | some (evs, m) => some ([{ type := .turnStart }] ++ evs, m)

/-! ## The Bash and Write tools (`BashTool.execute`, `WriteTool.execute`) -/

/-- What the spawned subprocess run does: completes with a return code
and merged output, exceeds the 120 s timeout, or fails to spawn. -/
inductive BashOutcome where
  | completed (rc : Int) (stdout : String) : BashOutcome
  | timeout : BashOutcome
  | osError (msg : String) : BashOutcome

def maxOutputConst : Nat := 30000

/-- `BashTool.execute`. -/
def bashExecute (command : String) (outcome : BashOutcome) : ToolResult :=
  if command = "" then { output := "No command provided.", isError := true }
  else
    match outcome with
    | .completed rc stdout =>
      let output := if stdout.length > maxOutputConst then
          stdout.take maxOutputConst ++ "\n... (output truncated)"
        else stdout
      let output := if rc ≠ 0 then "Exit code: " ++ toString rc ++ "\n" ++ output else output
      { output := output, isError := rc ≠ 0 }
    | .timeout => { output := "Command timed out after 120s.", isError := true }
    | .osError m => { output := "Failed to execute command: " ++ m, isError := true }

/-- `WriteTool.execute` (`writeErr` models a raised `OSError`). -/
def writeExecute (filePath content : String) (writeErr : Option String) : ToolResult :=
  if filePath = "" then { output := "No file_path provided.", isError := true }
  else
    match writeErr with
    | some e => { output := "Error writing file: " ++ e, isError := true }
    | none => { output := "Wrote " ++ toString content.length ++ " bytes to " ++ filePath }

/-! # Theorems for the claims -/

/-! ## C3 -/

/-- C3: the claim says the protocol parser accepts exactly prompt, steer,
abort, context_request and model_list_request.  The code's whitelist in
`ClientMessage.from_json` omits `model_list_request`, although
`Session.handle_client_message` has a dispatch case for it: a
`model_list_request` frame is rejected as an unknown message type, so the
session's handler is unreachable.  The other four types are accepted. -/
theorem C3_model_list_request_rejected :
    clientMessageFromJson (.ok (.obj [("type", .str "model_list_request")])) =
      .error "Unknown message type: model_list_request" ∧
    clientMessageFromJson (.ok (.obj [("type", .str "abort")])) =
      .ok { type := "abort", message := "" } ∧
    clientMessageFromJson (.ok (.obj [("type", .str "context_request")])) =
      .ok { type := "context_request", message := "" } ∧
    clientMessageFromJson (.ok (.obj [("type", .str "prompt"), ("message", .str "hi")])) =
      .ok { type := "prompt", message := "hi" } ∧
    clientMessageFromJson (.ok (.obj [("type", .str "steer"), ("message", .str "go")])) =
      .ok { type := "steer", message := "go" } ∧
    clientMessageFromJson (.error "syntax error") = .error "Invalid JSON: syntax error" ∧
    clientMessageFromJson (.ok (.str "just a string")) = .error "Message must be a JSON object" :=
  ⟨rfl, rfl, rfl, rfl, rfl, rfl, rfl⟩

/-! ## C9 -/

/-- C9: the claim says Event → JSON → Event serialization round-trips are
the identity, including the error message attached to a `compaction_end`
emitted after a compaction failure.  The code contradicts this:
`AgentEvent.to_dict` for `compaction_end` emits only `summary` and
`tokens_before`, so the event with `message = "Compaction failed: boom"`
(which the turn loop does emit after a failed compaction, as the first
conjunct shows for a concrete environment) serializes identically to the
event without the message: no parser can invert `to_dict`. -/
theorem C9_compaction_end_message_dropped :
    compactionStep
        { abort := fun _ => false, steers := fun _ => [],
          streams := fun _ => .error "", tools := fun _ => none,
          parseArgs := fun _ => none, charLen := fun _ => 500000,
          baseChars := 0, contextWindow := 128000,
          summarize := fun _ => .error "boom" }
        [Msg.toolMsg "c" "r", Msg.user "x"] =
      ([{ type := .compactionStart },
        { type := .compactionEnd, summary := "", tokensBefore := 0,
          message := "Compaction failed: boom" }],
       [Msg.toolMsg "c" "r", Msg.user "x"]) ∧
    toDict { type := .compactionEnd, summary := "", tokensBefore := 0,
             message := "Compaction failed: boom" } =
      toDict { type := .compactionEnd, summary := "", tokensBefore := 0, message := "" } ∧
    ({ type := .compactionEnd, summary := "", tokensBefore := 0,
       message := "Compaction failed: boom" } : AgentEvent) ≠
      { type := .compactionEnd, summary := "", tokensBefore := 0, message := "" } ∧
    JValue.lookup
      (toDict { type := .compactionEnd, summary := "", tokensBefore := 0,
                message := "Compaction failed: boom" }) "message" = none :=
  ⟨by decide, rfl, by decide, rfl⟩

/-! ## C10 -/

/-- C10 counterexample: a call with empty `new_text` whose `file_path` is
also empty returns the message `No file_path provided.`, not
`No new_text provided.` as the claim states for every empty-`new_text`
call (the checks run in file_path, hash, new_text order). -/
theorem C10_counterexample :
    editExecute "" [] [] (.ok []) none =
      ({ output := "No file_path provided.", isError := true }, none) ∧
    ("No file_path provided." : String) ≠ "No new_text provided." :=
  ⟨rfl, by decide⟩

/-- C10 (amended): every Edit call with empty `new_text` errors and
writes nothing; when `file_path` and `hash` are non-empty the message is
exactly `No new_text provided.` (the empty-`new_text` check precedes the
file read); and a write only ever happens with non-empty `new_text`, so
Edit never replaces a referenced region with empty content. -/
theorem C10_empty_new_text (filePath : String) (hashRef : List Char)
    (file : FsRead) (writeErr : Option String) :
    (editExecute filePath hashRef [] file writeErr).1.isError = true ∧
    (editExecute filePath hashRef [] file writeErr).2 = none ∧
    (filePath ≠ "" → hashRef ≠ [] →
      editExecute filePath hashRef [] file writeErr =
        ({ output := "No new_text provided.", isError := true }, none)) ∧
    (∀ newText written, (editExecute filePath hashRef newText file writeErr).2 = some written →
      newText ≠ []) := by
  refine ⟨?_, ?_, ?_, ?_⟩
  · by_cases h1 : filePath = "" <;> by_cases h2 : hashRef = [] <;>
      simp [editExecute, h1, h2]
  · by_cases h1 : filePath = "" <;> by_cases h2 : hashRef = [] <;>
      simp [editExecute, h1, h2]
  · intro h1 h2
    simp [editExecute, h1, h2]
  · intro newText written hw
    intro hnt
    subst hnt
    by_cases h1 : filePath = "" <;> by_cases h2 : hashRef = [] <;>
      simp [editExecute, h1, h2] at hw

/-- C10 witness: the amended behaviour at a concrete call. -/
theorem C10_witness :
    ("/tmp/f.txt" : String) ≠ "" ∧ ("1:65".data : List Char) ≠ [] ∧
    editExecute "/tmp/f.txt" "1:65".data [] (.ok "foo\n".data) none =
      ({ output := "No new_text provided.", isError := true }, none) :=
  ⟨by decide, by decide,
    (C10_empty_new_text "/tmp/f.txt" "1:65".data (.ok "foo\n".data) none).2.2.1
      (by decide) (by decide)⟩

/-! ## C1 -/

/-- C1 counterexample: two deltas sharing index 0, carrying names `foo`
then `bar`, are merged by the code into the name `foobar` — name
fragments are concatenated (`tc["function"]["name"] += …`), not replaced
by the last non-null one as the claim states. -/
theorem C1_counterexample :
    alookup (mergeAll
      [{ index := 0, id := some "a", fn := some { name := some "foo", arguments := some "x" } },
       { index := 0, id := some "b", fn := some { name := some "bar", arguments := some "y" } }]) 0 =
      some { id := "b", name := "foobar", arguments := "xy" } ∧
    ("foobar" : String) ≠ "bar" :=
  ⟨rfl, by decide⟩

theorem alookup_amodify_self (f : TCAcc → TCAcc) (m : List (Nat × TCAcc)) (k : Nat) :
    alookup (amodify f m k) k = (alookup m k).map f := by
  induction m with
  | nil => rfl
  | cons p rest ih =>
    obtain ⟨k0, v⟩ := p
    by_cases h : k0 = k <;> simp [amodify, alookup, h, ih]

theorem alookup_amodify_ne (f : TCAcc → TCAcc) (m : List (Nat × TCAcc)) (k k' : Nat)
    (h : k' ≠ k) : alookup (amodify f m k) k' = alookup m k' := by
  have hk : ¬ k = k' := fun hh => h hh.symm
  induction m with
  | nil => rfl
  | cons p rest ih =>
    obtain ⟨k0, v⟩ := p
    by_cases h0 : k0 = k
    · subst h0
      simp [amodify, alookup, hk]
    · by_cases h1 : k0 = k' <;> simp [amodify, alookup, h0, h1, hk, h, ih]

theorem alookup_append_single_self (m : List (Nat × TCAcc)) (k : Nat) (v : TCAcc)
    (h : alookup m k = none) : alookup (m ++ [(k, v)]) k = some v := by
  induction m with
  | nil => simp [alookup]
  | cons p rest ih =>
    obtain ⟨k0, v0⟩ := p
    by_cases h0 : k0 = k
    · simp [alookup, h0] at h
    · simp [alookup, h0] at h ⊢
      exact ih h

theorem alookup_append_single_ne (m : List (Nat × TCAcc)) (k k' : Nat) (v : TCAcc)
    (h : k' ≠ k) : alookup (m ++ [(k, v)]) k' = alookup m k' := by
  have hk : ¬ k = k' := fun hh => h hh.symm
  induction m with
  | nil => simp [alookup, hk]
  | cons p rest ih =>
    obtain ⟨k0, v0⟩ := p
    by_cases h0 : k0 = k' <;> simp [alookup, h0, ih]

theorem alookup_mergeStep_self (m : List (Nat × TCAcc)) (d : TCDelta) :
    alookup (mergeStep m d) d.index =
      some (applyDelta
        ((alookup m d.index).getD { id := d.id.getD "", name := "", arguments := "" }) d) := by
  unfold mergeStep
  cases h : alookup m d.index with
  | none =>
    simp only [h, Option.isNone_none, if_pos]
    rw [alookup_amodify_self, alookup_append_single_self _ _ _ h]
    rfl
  | some v =>
    simp only [h, Option.isNone_some, Bool.false_eq_true, if_neg, not_false_iff]
    rw [alookup_amodify_self, h]
    rfl

theorem alookup_mergeStep_ne (m : List (Nat × TCAcc)) (d : TCDelta) (k : Nat)
    (h : k ≠ d.index) : alookup (mergeStep m d) k = alookup m k := by
  unfold mergeStep
  cases hm : alookup m d.index with
  | none =>
    simp only [hm, Option.isNone_none, if_pos]
    rw [alookup_amodify_ne _ _ _ _ h, alookup_append_single_ne _ _ _ _ h]
  | some v =>
    simp only [hm, Option.isNone_some, Bool.false_eq_true, if_neg, not_false_iff]
    rw [alookup_amodify_ne _ _ _ _ h]

theorem applyDelta_eq (tc : TCAcc) (d : TCDelta) :
    applyDelta tc d =
      { id := if truthy d.id then d.id.getD "" else tc.id,
        name := tc.name ++ fnNameFrag d,
        arguments := tc.arguments ++ fnArgsFrag d } := by
  unfold applyDelta fnNameFrag fnArgsFrag
  cases hfn : d.fn with
  | none =>
    by_cases hid : truthy d.id <;> simp [hid]
  | some f =>
    by_cases hid : truthy d.id <;>
      by_cases hn : truthy f.name <;>
        by_cases ha : truthy f.arguments <;>
          simp_all [truthy]

theorem lastTruthy_append_single (l : List TCDelta) (d : TCDelta) :
    (((l ++ [d]).filterMap (fun x => if truthy x.id then x.id else none)).getLast?).getD "" =
      if truthy d.id then d.id.getD ""
      else ((l.filterMap (fun x => if truthy x.id then x.id else none)).getLast?).getD "" := by
  rw [List.filterMap_append]
  by_cases hid : truthy d.id
  · cases hd : d.id with
    | none => simp [truthy, hd] at hid
    | some s =>
      have hid' : truthy (some s) = true := hd ▸ hid
      have h1 : List.filterMap (fun x => if truthy x.id then x.id else none) [d] = [s] := by
        simp [List.filterMap, hd, hid']
      rw [h1, List.getLast?_concat]
      simp [hid', hd]
  · have h1 : List.filterMap (fun x => if truthy x.id then x.id else none) [d] = [] := by
      simp [List.filterMap, hid]
    rw [h1, List.append_nil]
    simp [hid]

theorem specMergeOne_append (l : List TCDelta) (d : TCDelta) :
    specMergeOne (l ++ [d]) = applyDelta (specMergeOne l) d := by
  rw [applyDelta_eq]
  unfold specMergeOne
  simp only [TCAcc.mk.injEq]
  refine ⟨lastTruthy_append_single l d, ?_, ?_⟩
  · simp [List.foldl_append]
  · simp [List.foldl_append]

/-- C1 (amended): for every arrival-ordered delta sequence and every
index, the accumulated entry for that index merges exactly its deltas:
the last truthy (non-null, non-empty) `id` wins, while `function.name`
and `function.arguments` fragments are both concatenated in arrival
order. -/
theorem C1_merge_amended (ds : List TCDelta) (k : Nat) :
    alookup (mergeAll ds) k =
      if (ds.filter (fun d => d.index == k)).isEmpty then none
      else some (specMergeOne (ds.filter (fun d => d.index == k))) := by
  induction ds using List.reverseRecOn with
  | nil => rfl
  | append_singleton l d ih =>
    have hstep : mergeAll (l ++ [d]) = mergeStep (mergeAll l) d := by
      simp [mergeAll, List.foldl_append]
    rw [hstep, List.filter_append]
    by_cases hk : d.index = k
    · subst hk
      have hfd : List.filter (fun d' => d'.index == d.index) [d] = [d] := by
        simp [List.filter_cons]
      rw [alookup_mergeStep_self, ih, hfd]
      by_cases he : List.filter (fun d' => d'.index == d.index) l = []
      · have h1 : specMergeOne [d] = applyDelta (specMergeOne []) d := by
          simpa using specMergeOne_append [] d
        simp only [he, List.isEmpty_nil, if_pos, Option.getD_none, List.nil_append,
          List.isEmpty_cons, Bool.false_eq_true, if_neg, not_false_iff]
        rw [h1, applyDelta_eq, applyDelta_eq]
        by_cases hid : truthy d.id
        · simp [hid, specMergeOne]
        · have hempty : d.id.getD "" = "" := by
            simpa [truthy] using hid
          simp [hid, specMergeOne, hempty]
      · have hne : (List.filter (fun d' => d'.index == d.index) l).isEmpty = false := by
          simp [he]
        have hne2 : (List.filter (fun d' => d'.index == d.index) l ++ [d]).isEmpty = false := by
          cases hc : List.filter (fun d' => d'.index == d.index) l with
          | nil => exact absurd hc he
          | cons x xs => simp
        simp only [hne, Bool.false_eq_true, if_neg, not_false_iff, Option.getD_some, hne2]
        rw [← specMergeOne_append]
    · have hfk : List.filter (fun d' => d'.index == k) [d] = [] := by
        simp [List.filter_cons, hk]
      rw [alookup_mergeStep_ne _ _ _ (fun hh => hk hh.symm), ih, hfk, List.append_nil]

/-! ## C2: supporting lemmas on digits, hex and reference parsing -/

theorem hexDigit_toNat_lt10 (d : Nat) (h : d < 10) : (hexDigit d).toNat = 48 + d := by
  interval_cases d <;> decide

theorem isDigitChar_hexDigit (d : Nat) (h : d < 10) : isDigitChar (hexDigit d) = true := by
  interval_cases d <;> decide

theorem isHexChar_hexDigit (d : Nat) (h : d < 16) : isHexChar (hexDigit d) = true := by
  interval_cases d <;> decide

theorem digitsToNat_append_single (ds : List Char) (c : Char) :
    digitsToNat (ds ++ [c]) = digitsToNat ds * 10 + (c.toNat - 48) := by
  unfold digitsToNat
  rw [List.foldl_append]
  rfl

theorem natDigitsAux_spec : ∀ fuel n, n < fuel →
    natDigitsAux fuel n ≠ [] ∧ (∀ c ∈ natDigitsAux fuel n, isDigitChar c) ∧
      digitsToNat (natDigitsAux fuel n) = n := by
  intro fuel
  induction fuel with
  | zero => intro n h; exact absurd h (Nat.not_lt_zero n)
  | succ fuel ih =>
    intro n h
    unfold natDigitsAux
    by_cases h10 : n < 10
    · rw [if_pos h10]
      refine ⟨by simp, ?_, ?_⟩
      · intro c hc
        simp at hc
        subst hc
        exact isDigitChar_hexDigit n h10
      · show digitsToNat ([] ++ [hexDigit n]) = n
        rw [digitsToNat_append_single, hexDigit_toNat_lt10 n h10]
        simp [digitsToNat]
    · rw [if_neg h10]
      have hdiv : n / 10 < fuel := by
        have h1 : n / 10 < n := Nat.div_lt_self (by omega) (by omega)
        omega
      obtain ⟨hne, hdig, hval⟩ := ih (n / 10) hdiv
      have hm : n % 10 < 10 := Nat.mod_lt _ (by omega)
      refine ⟨by simp, ?_, ?_⟩
      · intro c hc
        rcases List.mem_append.mp hc with hc | hc
        · exact hdig c hc
        · simp at hc
          subst hc
          exact isDigitChar_hexDigit _ hm
      · rw [digitsToNat_append_single, hval, hexDigit_toNat_lt10 _ hm]
        omega

theorem natDigits_spec (n : Nat) :
    natDigits n ≠ [] ∧ (∀ c ∈ natDigits n, isDigitChar c) ∧ digitsToNat (natDigits n) = n :=
  natDigitsAux_spec (n + 1) n (Nat.lt_succ_self n)

theorem toHexAux_hex : ∀ fuel n, ∀ c ∈ toHexAux fuel n, isHexChar c := by
  intro fuel
  induction fuel with
  | zero => intro n c hc; simp [toHexAux] at hc
  | succ fuel ih =>
    intro n c hc
    cases n with
    | zero => simp [toHexAux] at hc
    | succ m =>
      rw [show toHexAux (fuel + 1) (m + 1) =
          toHexAux fuel ((m + 1) / 16) ++ [hexDigit ((m + 1) % 16)] from rfl] at hc
      rcases List.mem_append.mp hc with hc | hc
      · exact ih _ c hc
      · simp at hc
        subst hc
        exact isHexChar_hexDigit _ (Nat.mod_lt _ (by omega))

theorem toHex_ne_nil (n : Nat) : toHex n ≠ [] := by
  unfold toHex
  by_cases h : n = 0
  · simp [h]
  · rw [if_neg h]
    cases n with
    | zero => exact absurd rfl h
    | succ m =>
      rw [show toHexAux (m + 1 + 1) (m + 1) =
          toHexAux (m + 1) ((m + 1) / 16) ++ [hexDigit ((m + 1) % 16)] from rfl]
      simp

theorem toHex_hex (n : Nat) : ∀ c ∈ toHex n, isHexChar c := by
  unfold toHex
  by_cases h : n = 0
  · intro c hc
    simp [h] at hc
    subst hc
    decide
  · rw [if_neg h]
    exact toHexAux_hex (n + 1) n

theorem hashLine_ne_nil (cs : List Char) : hashLine cs ≠ [] := by
  unfold hashLine
  have h := toHex_ne_nil (crc32 (utf8Encode cs) &&& 0xFFFF)
  cases hx : toHex (crc32 (utf8Encode cs) &&& 0xFFFF) with
  | nil => exact absurd hx h
  | cons a l => simp [hx]

theorem hashLine_hex (cs : List Char) : ∀ c ∈ hashLine cs, isHexChar c := by
  intro c hc
  exact toHex_hex _ c (List.mem_of_mem_take hc)

theorem parseLineHash_roundtrip (n : Nat) (h : List Char)
    (hne : h ≠ []) (hhex : ∀ c ∈ h, isHexChar c) :
    parseLineHash (natDigits n ++ ':' :: h) = some (n, h) := by
  obtain ⟨hdne, hdig, hval⟩ := natDigits_spec n
  have ht : (natDigits n ++ ':' :: h).takeWhile isDigitChar = natDigits n := by
    rw [List.takeWhile_append_of_pos hdig]
    simp [List.takeWhile, show isDigitChar ':' = false from rfl]
  have hd : (natDigits n ++ ':' :: h).dropWhile isDigitChar = ':' :: h := by
    rw [List.dropWhile_append_of_pos hdig]
    simp [List.dropWhile, show isDigitChar ':' = false from rfl]
  unfold parseLineHash
  simp only [ht, hd]
  simp [hdne, hne, List.all_eq_true.mpr hhex, hval]

theorem findSingleAux_none_of_ge (n : Nat) (h : List Char) :
    ∀ (ls : List (List Char)) (j : Nat), n ≤ j → findSingleAux n h ls j = none := by
  intro ls
  induction ls with
  | nil => intro j _; rfl
  | cons line rest ih =>
    intro j hj
    unfold findSingleAux
    rw [if_neg (by omega : ¬ (rstripNl line ≠ [] ∧ j + 1 = n ∧ hashLine (rstripNl line) = h))]
    exact ih (j + 1) (by omega)

theorem findSingleAux_eq (nh : List Char) (n : Nat) :
    ∀ (ls : List (List Char)) (j : Nat), j < n →
      findSingleAux n nh ls j =
        if n - 1 - j < ls.length ∧ rstripNl (ls.getD (n - 1 - j) []) ≠ [] ∧
            hashLine (rstripNl (ls.getD (n - 1 - j) [])) = nh then some (n - 1) else none := by
  intro ls
  induction ls with
  | nil =>
    intro j hj
    rw [if_neg (by simp)]
    rfl
  | cons line rest ih =>
    intro j hj
    unfold findSingleAux
    by_cases hjn : j + 1 = n
    · have hidx : n - 1 - j = 0 := by omega
      rw [hidx]
      simp only [List.getD_cons_zero, List.length_cons]
      by_cases hcond : rstripNl line ≠ [] ∧ hashLine (rstripNl line) = nh
      · rw [if_pos ⟨hcond.1, hjn, hcond.2⟩, if_pos ⟨by omega, hcond⟩]
        exact congrArg some (by omega)
      · rw [if_neg (by tauto), findSingleAux_none_of_ge n nh rest (j + 1) (by omega)]
        rw [if_neg (by tauto)]
    · have hjn2 : j + 1 < n := by omega
      rw [if_neg (by tauto)]
      rw [ih (j + 1) hjn2]
      have hidx : n - 1 - j = (n - 1 - (j + 1)) + 1 := by omega
      rw [hidx]
      simp only [List.getD_cons_succ, List.length_cons]
      by_cases hc : n - 1 - (j + 1) < rest.length ∧
          rstripNl (rest.getD (n - 1 - (j + 1)) []) ≠ [] ∧
          hashLine (rstripNl (rest.getD (n - 1 - (j + 1)) [])) = nh
      · rw [if_pos hc, if_pos ⟨by omega, hc.2⟩]
      · rw [if_neg hc]
        rw [if_neg (fun hcontra => hc ⟨by omega, hcontra.2⟩)]

theorem findSingleIdx_eq (lines : List (List Char)) (n : Nat) (nh : List Char) (hn : 1 ≤ n) :
    findSingleIdx lines n nh =
      if n - 1 < lines.length ∧ rstripNl (lines.getD (n - 1) []) ≠ [] ∧
          hashLine (rstripNl (lines.getD (n - 1) [])) = nh then some (n - 1) else none := by
  unfold findSingleIdx
  have h := findSingleAux_eq nh n lines 0 (by omega)
  simpa using h

theorem mem_ref_cases (n : Nat) (h : List Char) (hhex : ∀ c ∈ h, isHexChar c) (c : Char)
    (hc : c ∈ natDigits n ++ ':' :: h) :
    isDigitChar c = true ∨ c = ':' ∨ isHexChar c = true := by
  rcases List.mem_append.mp hc with hc | hc
  · exact Or.inl ((natDigits_spec n).2.1 c hc)
  · rcases List.mem_cons.mp hc with hc | hc
    · exact Or.inr (Or.inl hc)
    · exact Or.inr (Or.inr (hhex c hc))

theorem dash_not_mem_ref (n : Nat) (h : List Char) (hhex : ∀ c ∈ h, isHexChar c) :
    ('-' : Char) ∉ natDigits n ++ ':' :: h := by
  intro hmem
  rcases mem_ref_cases n h hhex '-' hmem with hd | hcol | hx
  · exact absurd hd (by decide)
  · exact absurd hcol (by decide)
  · exact absurd hx (by decide)

/-- The single-line branch of `EditTool.execute`, for a well-formed
`<line>:<hash>` reference: the result is decided by the line search. -/
theorem editExecute_single (filePath : String) (hfp : filePath ≠ "")
    (n : Nat) (_hn : 1 ≤ n) (nh : List Char) (hne : nh ≠ [])
    (hhex : ∀ c ∈ nh, isHexChar c)
    (newText : List Char) (hnt : newText ≠ []) (text : List Char) (writeErr : Option String) :
    editExecute filePath (natDigits n ++ ':' :: nh) newText (.ok text) writeErr =
      match findSingleIdx (splitLines text) n nh with
      | none =>
        ({ output := "Hash " ++ String.mk (natDigits n ++ ':' :: nh) ++
             " not found in file. File may have changed since read.", isError := true }, none)
      | some idx =>
        match writeErr with
        | some e => ({ output := "Error writing file: " ++ e, isError := true }, none)
        | none =>
          ({ output := "Edit applied successfully." }, some
            (((splitLines text).set idx
              (newText ++ if endsWithNl ((splitLines text).getD idx []) then ['\n'] else [])).flatten)) := by
  have hrne : natDigits n ++ ':' :: nh ≠ [] := by
    simp
  have hdash := dash_not_mem_ref n nh hhex
  have hcolon : (':' : Char) ∈ natDigits n ++ ':' :: nh := by
    simp
  simp only [editExecute, if_neg hfp, if_neg hrne, if_neg hnt, hdash, hcolon,
    parseLineHash_roundtrip n nh hne hhex, false_and, not_false_iff, if_false, if_true,
    and_true, if_neg, if_pos]
  cases hf : findSingleIdx (splitLines text) n nh with
  | none => simp
  | some idx => cases writeErr <;> simp

/-! ## C8 -/

/-- The parameter-error discipline of the bash/read/write/edit tools:
missing or empty required parameters produce `is_error=true` with a
human-readable message, and the handled failure modes (missing file, OS
error, subprocess timeout, spawn failure) are mapped to error results by
the tools' exception handlers. -/
theorem toolsParamErrors :
    (∀ o, bashExecute "" o = { output := "No command provided.", isError := true }) ∧
    (∀ dump fs offset limit,
      readExecute dump fs [] offset limit =
        { output := "No file_paths provided.", isError := true }) ∧
    (∀ content writeErr,
      writeExecute "" content writeErr =
        { output := "No file_path provided.", isError := true }) ∧
    (∀ hashRef newText file writeErr,
      editExecute "" hashRef newText file writeErr =
        ({ output := "No file_path provided.", isError := true }, none)) ∧
    (∀ (filePath : String) newText file writeErr, filePath ≠ "" →
      (editExecute filePath [] newText file writeErr).1 =
        { output := "No hash provided. Use format \x27line:hash\x27 (e.g., \x2742:ab\x27) or \x27start:end\x27 range.",
          isError := true }) ∧
    (∀ command, command ≠ "" →
      bashExecute command .timeout =
        { output := "Command timed out after 120s.", isError := true }) ∧
    (∀ command msg, command ≠ "" →
      bashExecute command (.osError msg) =
        { output := "Failed to execute command: " ++ msg, isError := true }) := by
  refine ⟨fun o => rfl, fun dump fs offset limit => rfl, fun content writeErr => rfl,
    fun hashRef newText file writeErr => rfl, ?_, ?_, ?_⟩
  · intro filePath newText file writeErr h
    simp [editExecute, h]
  · intro command h
    simp [bashExecute, h]
  · intro command msg h
    simp [bashExecute, h]

/-- The parameter-error behaviour at concrete calls. -/
theorem toolsParamErrors_example :
    ("echo hi" : String) ≠ "" ∧
    bashExecute "echo hi" .timeout =
      { output := "Command timed out after 120s.", isError := true } ∧
    bashExecute "" .timeout = { output := "No command provided.", isError := true } :=
  ⟨by decide, toolsParamErrors.2.2.2.2.2.1 "echo hi" (by decide),
    toolsParamErrors.1 .timeout⟩

/-! ## C4 -/

/-- C4: `_create_stream_with_retry` makes at most 3 attempts; an attempt
is retried exactly when it is a transport error or an HTTP status in
{429, 500, 502, 503}; the loop sleeps 1 s before the second attempt and
2 s before the third (backoff doubles, capped at 30 s in the source); any
other status raises `AgentError` carrying the status immediately; after
three failed retryable attempts the max-retries error carries the last
attempt's error.  The conjuncts cover every possible run shape. -/
theorem C4_retry_policy (attempts : Nat → AttemptResult) :
    (attempts 0 = .success → createStreamWithRetry attempts = (.stream 0, [])) ∧
    (retryableAttempt (attempts 0) → attempts 1 = .success →
      createStreamWithRetry attempts = (.stream 1, [1])) ∧
    (retryableAttempt (attempts 0) → retryableAttempt (attempts 1) → attempts 2 = .success →
      createStreamWithRetry attempts = (.stream 2, [1, 2])) ∧
    (∀ c m, attempts 0 = .statusError c m → c ∉ retryableStatusCodes →
      createStreamWithRetry attempts = (.apiError c m, [])) ∧
    (∀ c m, retryableAttempt (attempts 0) → attempts 1 = .statusError c m →
      c ∉ retryableStatusCodes → createStreamWithRetry attempts = (.apiError c m, [1])) ∧
    (∀ c m, retryableAttempt (attempts 0) → retryableAttempt (attempts 1) →
      attempts 2 = .statusError c m → c ∉ retryableStatusCodes →
      createStreamWithRetry attempts = (.apiError c m, [1, 2])) ∧
    (retryableAttempt (attempts 0) → retryableAttempt (attempts 1) →
      retryableAttempt (attempts 2) →
      createStreamWithRetry attempts = (.maxRetries (attemptMsg (attempts 2)), [1, 2])) := by
  refine ⟨?_, ?_, ?_, ?_, ?_, ?_, ?_⟩
  · intro h0
    simp [createStreamWithRetry, retryGo, maxRetriesConst, h0]
  · intro h0 h1
    cases ha0 : attempts 0 with
    | success => rw [ha0] at h0; simp [retryableAttempt] at h0
    | statusError c0 m0 =>
      rw [ha0] at h0; simp [retryableAttempt] at h0
      simp [createStreamWithRetry, retryGo, maxRetriesConst, ha0, h0, h1]
    | connError m0 =>
      simp [createStreamWithRetry, retryGo, maxRetriesConst, ha0, h1]
  · intro h0 h1 h2
    cases ha0 : attempts 0 with
    | success => rw [ha0] at h0; simp [retryableAttempt] at h0
    | statusError c0 m0 =>
      rw [ha0] at h0; simp [retryableAttempt] at h0
      cases ha1 : attempts 1 with
      | success => rw [ha1] at h1; simp [retryableAttempt] at h1
      | statusError c1 m1 =>
        rw [ha1] at h1; simp [retryableAttempt] at h1
        simp [createStreamWithRetry, retryGo, maxRetriesConst, ha0, h0, ha1, h1, h2]
      | connError m1 =>
        simp [createStreamWithRetry, retryGo, maxRetriesConst, ha0, h0, ha1, h2]
    | connError m0 =>
      cases ha1 : attempts 1 with
      | success => rw [ha1] at h1; simp [retryableAttempt] at h1
      | statusError c1 m1 =>
        rw [ha1] at h1; simp [retryableAttempt] at h1
        simp [createStreamWithRetry, retryGo, maxRetriesConst, ha0, ha1, h1, h2]
      | connError m1 =>
        simp [createStreamWithRetry, retryGo, maxRetriesConst, ha0, ha1, h2]
  · intro c m h0 hc
    simp [createStreamWithRetry, retryGo, maxRetriesConst, h0, hc]
  · intro c m h0 h1 hc
    cases ha0 : attempts 0 with
    | success => rw [ha0] at h0; simp [retryableAttempt] at h0
    | statusError c0 m0 =>
      rw [ha0] at h0; simp [retryableAttempt] at h0
      simp [createStreamWithRetry, retryGo, maxRetriesConst, ha0, h0, h1, hc]
    | connError m0 =>
      simp [createStreamWithRetry, retryGo, maxRetriesConst, ha0, h1, hc]
  · intro c m h0 h1 h2 hc
    cases ha0 : attempts 0 with
    | success => rw [ha0] at h0; simp [retryableAttempt] at h0
    | statusError c0 m0 =>
      rw [ha0] at h0; simp [retryableAttempt] at h0
      cases ha1 : attempts 1 with
      | success => rw [ha1] at h1; simp [retryableAttempt] at h1
      | statusError c1 m1 =>
        rw [ha1] at h1; simp [retryableAttempt] at h1
        simp [createStreamWithRetry, retryGo, maxRetriesConst, ha0, h0, ha1, h1, h2, hc]
      | connError m1 =>
        simp [createStreamWithRetry, retryGo, maxRetriesConst, ha0, h0, ha1, h2, hc]
    | connError m0 =>
      cases ha1 : attempts 1 with
      | success => rw [ha1] at h1; simp [retryableAttempt] at h1
      | statusError c1 m1 =>
        rw [ha1] at h1; simp [retryableAttempt] at h1
        simp [createStreamWithRetry, retryGo, maxRetriesConst, ha0, ha1, h1, h2, hc]
      | connError m1 =>
        simp [createStreamWithRetry, retryGo, maxRetriesConst, ha0, ha1, h2, hc]
  · intro h0 h1 h2
    cases ha0 : attempts 0 with
    | success => rw [ha0] at h0; simp [retryableAttempt] at h0
    | statusError c0 m0 =>
      rw [ha0] at h0; simp [retryableAttempt] at h0
      cases ha1 : attempts 1 with
      | success => rw [ha1] at h1; simp [retryableAttempt] at h1
      | statusError c1 m1 =>
        rw [ha1] at h1; simp [retryableAttempt] at h1
        cases ha2 : attempts 2 with
        | success => rw [ha2] at h2; simp [retryableAttempt] at h2
        | statusError c2 m2 =>
          rw [ha2] at h2; simp [retryableAttempt] at h2
          simp [createStreamWithRetry, retryGo, maxRetriesConst, ha0, h0, ha1, h1, ha2, h2,
            attemptMsg]
        | connError m2 =>
          simp [createStreamWithRetry, retryGo, maxRetriesConst, ha0, h0, ha1, h1, ha2,
            attemptMsg]
      | connError m1 =>
        cases ha2 : attempts 2 with
        | success => rw [ha2] at h2; simp [retryableAttempt] at h2
        | statusError c2 m2 =>
          rw [ha2] at h2; simp [retryableAttempt] at h2
          simp [createStreamWithRetry, retryGo, maxRetriesConst, ha0, h0, ha1, ha2, h2,
            attemptMsg]
        | connError m2 =>
          simp [createStreamWithRetry, retryGo, maxRetriesConst, ha0, h0, ha1, ha2, attemptMsg]
    | connError m0 =>
      cases ha1 : attempts 1 with
      | success => rw [ha1] at h1; simp [retryableAttempt] at h1
      | statusError c1 m1 =>
        rw [ha1] at h1; simp [retryableAttempt] at h1
        cases ha2 : attempts 2 with
        | success => rw [ha2] at h2; simp [retryableAttempt] at h2
        | statusError c2 m2 =>
          rw [ha2] at h2; simp [retryableAttempt] at h2
          simp [createStreamWithRetry, retryGo, maxRetriesConst, ha0, ha1, h1, ha2, h2,
            attemptMsg]
        | connError m2 =>
          simp [createStreamWithRetry, retryGo, maxRetriesConst, ha0, ha1, h1, ha2, attemptMsg]
      | connError m1 =>
        cases ha2 : attempts 2 with
        | success => rw [ha2] at h2; simp [retryableAttempt] at h2
        | statusError c2 m2 =>
          rw [ha2] at h2; simp [retryableAttempt] at h2
          simp [createStreamWithRetry, retryGo, maxRetriesConst, ha0, ha1, ha2, h2, attemptMsg]
        | connError m2 =>
          simp [createStreamWithRetry, retryGo, maxRetriesConst, ha0, ha1, ha2, attemptMsg]

/-- C4 witness: a 503 then a connection error then a 429 exhaust the
three attempts with sleeps of 1 s and 2 s. -/
theorem C4_witness :
    createStreamWithRetry
        (fun k => if k = 0 then .statusError 503 "unavailable"
          else if k = 1 then .connError "reset" else .statusError 429 "limited") =
      (.maxRetries (some "limited"), [1, 2]) := by
  have h := (C4_retry_policy
    (fun k => if k = 0 then .statusError 503 "unavailable"
      else if k = 1 then .connError "reset" else .statusError 429 "limited")).2.2.2.2.2.2
    (by decide) (by decide) (by decide)
  simpa using h

/-! ## C6 -/

theorem suffixTokens_succ (est : Msg → Nat) (msgs : List Msg) (k : Nat)
    (h : k < msgs.length) :
    suffixTokens est msgs k = suffixTokens est msgs (k + 1) + est (msgs.getD k (.user "")) := by
  have hg : msgs.getD k (.user "") = msgs[k] := by
    simp [List.getD_eq_getElem?_getD, List.getElem?_eq_getElem h]
  rw [hg]
  unfold suffixTokens
  rw [List.drop_eq_getElem_cons h, List.map_cons, List.sum_cons, Nat.add_comm]

theorem findCutAux_eq (est : Msg → Nat) (msgs : List Msg) :
    ∀ k, k ≤ msgs.length →
      findCutAux est msgs k (suffixTokens est msgs k) =
        match lastSat (fun i => keepRecentTokens ≤ suffixTokens est msgs i) k with
        | none => 0
        | some i => firstUAFrom msgs i := by
  intro k
  induction k with
  | zero => intro _; rfl
  | succ k ih =>
    intro hk
    have hklt : k < msgs.length := hk
    have hacc : suffixTokens est msgs (k + 1) + est (msgs.getD k (.user "")) =
        suffixTokens est msgs k := (suffixTokens_succ est msgs k hklt).symm
    unfold findCutAux lastSat
    simp only [hacc]
    by_cases hc : keepRecentTokens ≤ suffixTokens est msgs k
    · simp [hc, ge_iff_le]
    · simp only [ge_iff_le, hc, decide_eq_true_eq, if_neg, not_false_iff,
        decide_eq_false_iff_not, if_false]
      exact ih (Nat.le_of_lt hklt)

theorem findCutPoint_eq_spec (est : Msg → Nat) (msgs : List Msg) :
    findCutPoint est msgs = cutPointSpec est msgs := by
  have h0 : suffixTokens est msgs msgs.length = 0 := by
    simp [suffixTokens]
  have h := findCutAux_eq est msgs msgs.length le_rfl
  rw [h0] at h
  unfold findCutPoint cutPointSpec
  exact h

theorem firstUAGo_isUA (l : List Msg) (j : Nat) :
    firstUAGo l j = 0 ∨ (∃ dlt, dlt < l.length ∧ firstUAGo l j = j + dlt ∧
      isUA (l.getD dlt (.toolMsg "" "")) = true) := by
  induction l generalizing j with
  | nil => left; rfl
  | cons m rest ih =>
    by_cases hm : isUA m
    · right
      exact ⟨0, by simp, by simp [firstUAGo, hm], by simpa using hm⟩
    · have hstep : firstUAGo (m :: rest) j = firstUAGo rest (j + 1) := by
        simp [firstUAGo, hm]
      rcases ih (j + 1) with h0 | ⟨dlt, hlt, heq, hua⟩
      · left; rw [hstep]; exact h0
      · right
        refine ⟨dlt + 1, by simpa using Nat.succ_lt_succ hlt, ?_, by simpa using hua⟩
        rw [hstep, heq]
        omega

theorem firstUAFrom_isUA (msgs : List Msg) (i : Nat) (h : firstUAFrom msgs i ≠ 0) :
    isUA (msgs.getD (firstUAFrom msgs i) (.toolMsg "" "")) = true := by
  unfold firstUAFrom at h ⊢
  rcases firstUAGo_isUA (msgs.drop i) i with h0 | ⟨dlt, hlt, heq, hua⟩
  · exact absurd h0 h
  · rw [heq]
    have hg : msgs.getD (i + dlt) (.toolMsg "" "") =
        (msgs.drop i).getD dlt (.toolMsg "" "") := by
      rw [List.getD_eq_getElem?_getD, List.getD_eq_getElem?_getD, List.getElem?_drop]
    rw [hg]
    exact hua

/-- C6: the compaction cut walk is equivalent to its direct description
(cut at the first user/assistant message at-or-after the greatest index
whose suffix carries at least 20 000 estimated tokens); a non-zero cut
never lands on a tool-result message; a zero cut makes compaction a no-op
returning the placeholder summary with the conversation unchanged; a
failing summarization call propagates its error with the conversation
unchanged; otherwise the conversation becomes the synthetic user summary
message, the synthetic assistant acknowledgment, then the original
suffix from the cut onward. -/
theorem C6_compaction (est : Msg → Nat) (tokensBefore : Nat)
    (summarize : List Msg → Except String (Option String)) (msgs : List Msg) :
    findCutPoint est msgs = cutPointSpec est msgs ∧
    (findCutPoint est msgs ≠ 0 →
      isUA (msgs.getD (findCutPoint est msgs) (.toolMsg "" "")) = true) ∧
    (findCutPoint est msgs = 0 →
      compactModel est tokensBefore summarize msgs =
        .ok (compactPlaceholder, tokensBefore, msgs)) ∧
    (findCutPoint est msgs ≠ 0 →
      ∀ e, summarize (msgs.take (findCutPoint est msgs)) = .error e →
        compactModel est tokensBefore summarize msgs = .error e) ∧
    (findCutPoint est msgs ≠ 0 →
      ∀ content, summarize (msgs.take (findCutPoint est msgs)) = .ok content →
        ∃ summary, compactModel est tokensBefore summarize msgs =
          .ok (summary, tokensBefore,
            [Msg.user (summaryUserText summary), Msg.assistant (some compactAck) []] ++
              msgs.drop (findCutPoint est msgs))) := by
  refine ⟨findCutPoint_eq_spec est msgs, ?_, ?_, ?_, ?_⟩
  · intro h
    rw [findCutPoint_eq_spec] at h ⊢
    unfold cutPointSpec at h ⊢
    revert h
    cases hs : lastSat (fun i => keepRecentTokens ≤ suffixTokens est msgs i) msgs.length with
    | none => intro h; exact absurd rfl h
    | some i => intro h; exact firstUAFrom_isUA msgs i h
  · intro h
    simp [compactModel, h]
  · intro h e hsum
    simp [compactModel, h, hsum]
  · intro h content hsum
    refine ⟨match content with
      | some c => if c = "" then "No summary generated." else c
      | none => "No summary generated.", ?_⟩
    simp [compactModel, h, hsum]
    cases content <;> simp

/-- C6 witness: with every message estimated at 20 000 tokens the walk
stops at the newest message; on `[tool-result, user]` the cut is 1
(the user message, not the tool result) and compaction rewrites the
conversation as claimed. -/
theorem C6_witness :
    findCutPoint (fun _ => 20000) [Msg.toolMsg "c" "r", Msg.user "x"] ≠ 0 ∧
    isUA ([Msg.toolMsg "c" "r", Msg.user "x"].getD
      (findCutPoint (fun _ => 20000) [Msg.toolMsg "c" "r", Msg.user "x"]) (.toolMsg "" "")) =
      true ∧
    (∃ summary,
      compactModel (fun _ => 20000) 5 (fun _ => .ok (some "S"))
          [Msg.toolMsg "c" "r", Msg.user "x"] =
        .ok (summary, 5,
          [Msg.user (summaryUserText summary), Msg.assistant (some compactAck) []] ++
            [Msg.toolMsg "c" "r", Msg.user "x"].drop
              (findCutPoint (fun _ => 20000) [Msg.toolMsg "c" "r", Msg.user "x"]))) :=
  ⟨by decide,
    (C6_compaction (fun _ => 20000) 5 (fun _ => .ok (some "S"))
      [Msg.toolMsg "c" "r", Msg.user "x"]).2.1 (by decide),
    (C6_compaction (fun _ => 20000) 5 (fun _ => .ok (some "S"))
      [Msg.toolMsg "c" "r", Msg.user "x"]).2.2.2.2 (by decide) (some "S") rfl⟩

/-! ## C7 -/

/-- C7: when the turn loop executes a tool call whose name is not
registered (and abort is not set at that checkpoint), it emits
`tool_start` followed by `tool_end` with `is_error = true` and result
`Unknown tool: <name>`, appends a tool-result message carrying exactly
that text, and continues with the remaining calls: the run over
`tc :: rest` is the head's two events prepended to the run over `rest`
(same status — the turn is not terminated by an unknown tool). -/
theorem C7_unknown_tool (env : LoopEnv) (tc : TCAcc) (rest : List TCAcc)
    (msgs : List Msg) (ckpt : Nat)
    (hab : env.abort ckpt = false) (htool : env.tools tc.name = none) :
    execToolCalls env (tc :: rest) msgs ckpt =
      { execToolCalls env rest
          (msgs ++ [.toolMsg tc.id ("Unknown tool: " ++ tc.name)]) (ckpt + 1) with
        events :=
          [{ type := .toolStart, toolName := tc.name, toolCallId := tc.id,
             args := (env.parseArgs tc.arguments).getD [] },
           { type := .toolEnd, toolName := tc.name, toolCallId := tc.id,
             result := "Unknown tool: " ++ tc.name, isError := true }] ++
          (execToolCalls env rest
            (msgs ++ [.toolMsg tc.id ("Unknown tool: " ++ tc.name)]) (ckpt + 1)).events } := by
  conv_lhs => unfold execToolCalls
  simp [hab, htool, toolResultPair, toolStartEvent, toolEndEvent]

/-- C7 witness: an unknown tool named `nope` at a concrete call site. -/
theorem C7_witness :
    execToolCalls
        { abort := fun _ => false, steers := fun _ => [], streams := fun _ => .error "",
          tools := fun _ => none, parseArgs := fun _ => none, charLen := fun _ => 0,
          baseChars := 0, contextWindow := 128000, summarize := fun _ => .error "" }
        [{ id := "tc1", name := "nope", arguments := "" }] [] 0 =
      { events :=
          [{ type := .toolStart, toolName := "nope", toolCallId := "tc1", args := [] },
           { type := .toolEnd, toolName := "nope", toolCallId := "tc1",
             result := "Unknown tool: nope", isError := true }],
        msgs := [.toolMsg "tc1" "Unknown tool: nope"], ckpt := 1, status := .completed } := by
  rw [C7_unknown_tool _ _ _ _ _ rfl rfl]
  rfl

/-! ## C5 -/

/-- The per-event predicate counted by C5. -/
def isAgentEnd (e : AgentEvent) : Bool :=
  e.type == EventType.agentEnd

theorem contentEvents_textDelta (c : Option String) :
    ∀ e ∈ contentEvents c, e.type = .textDelta := by
  intro e he
  unfold contentEvents at he
  cases c with
  | none => simp at he
  | some s =>
    by_cases hs : s ≠ "" <;> simp [hs] at he
    subst he
    rfl

theorem consumeChunks_no_agentEnd (env : LoopEnv) :
    ∀ (chunks : List Chunk) (failAfter : Option String) (ckpt : Nat)
      (parts : List String) (tcMap : List (Nat × TCAcc)) (finish : Option String),
      ∀ e ∈ (consumeChunks env chunks failAfter ckpt parts tcMap finish).events,
        e.type ≠ .agentEnd := by
  intro chunks
  induction chunks with
  | nil =>
    intro fa ckpt parts tcMap finish e he
    cases fa <;> simp [consumeChunks] at he
  | cons chunk rest ih =>
    intro fa ckpt parts tcMap finish e he
    unfold consumeChunks at he
    by_cases hab : env.abort ckpt
    · simp [hab] at he
    · simp only [hab, Bool.false_eq_true, if_neg, not_false_iff] at he
      cases hch : chunk.choice with
      | none =>
        rw [hch] at he
        exact ih fa (ckpt + 1) parts tcMap finish e he
      | some choice =>
        rw [hch] at he
        simp only [List.mem_append] at he
        rcases he with he | he
        · rw [contentEvents_textDelta choice.content e he]
          simp
        · exact ih fa (ckpt + 1) _ _ _ e he

theorem canvasEvents_no_agentEnd (args : List (String × String)) (imageData : String) :
    ∀ e ∈ canvasEvents args imageData, e.type ≠ .agentEnd := by
  intro e he
  unfold canvasEvents at he
  split at he <;> simp at he <;> (subst he; simp)

theorem execToolCalls_no_agentEnd (env : LoopEnv) :
    ∀ (tcs : List TCAcc) (msgs : List Msg) (ckpt : Nat),
      ∀ e ∈ (execToolCalls env tcs msgs ckpt).events, e.type ≠ .agentEnd := by
  intro tcs
  induction tcs with
  | nil => intro msgs ckpt e he; simp [execToolCalls] at he
  | cons tc rest ih =>
    intro msgs ckpt e he
    unfold execToolCalls at he
    by_cases hab : env.abort ckpt
    · simp [hab] at he
    · simp only [hab, Bool.false_eq_true, if_neg, not_false_iff, List.append_assoc,
        List.cons_append, List.nil_append, List.mem_cons, List.mem_append] at he
      rcases he with he | he | he | he
      · subst he; simp [toolStartEvent]
      · subst he; simp [toolEndEvent]
      · revert he
        split
        · intro he
          exact canvasEvents_no_agentEnd _ _ e he
        · intro he
          simp at he
      · exact ih _ _ e he

theorem compactionStep_no_agentEnd (env : LoopEnv) (msgs : List Msg) :
    ∀ e ∈ (compactionStep env msgs).1, e.type ≠ .agentEnd := by
  intro e he
  unfold compactionStep at he
  split at he
  · split at he <;> simp at he <;> (rcases he with he | he <;> (subst he; simp))
  · simp at he

theorem countP_eq_zero_of_no_agentEnd {l : List AgentEvent}
    (h : ∀ e ∈ l, e.type ≠ .agentEnd) : l.countP isAgentEnd = 0 := by
  rw [List.countP_eq_zero]
  intro e he
  simp [isAgentEnd]
  exact h e he

theorem runPromptLoop_one_agentEnd (env : LoopEnv) :
    ∀ (fuel iter ckpt : Nat) (msgs : List Msg) (evs : List AgentEvent) (m : List Msg),
      runPromptLoop env fuel iter ckpt msgs = some (evs, m) →
      evs.countP isAgentEnd = 1 := by
  intro fuel
  induction fuel with
  | zero => intro iter ckpt msgs evs m h; cases h
  | succ fuel ih =>
    intro iter ckpt msgs evs m h
    unfold runPromptLoop at h
    by_cases hab : env.abort ckpt
    · rw [if_pos hab] at h
      cases h
      rfl
    · rw [if_neg hab] at h
      rcases hcs : compactionStep env (msgs ++ (env.steers iter).map Msg.user) with ⟨cevs, msgs2⟩
      have hcz : cevs.countP isAgentEnd = 0 := by
        have hz := countP_eq_zero_of_no_agentEnd
          (compactionStep_no_agentEnd env (msgs ++ (env.steers iter).map Msg.user))
        rwa [hcs] at hz
      simp only [hcs] at h
      cases hstr : env.streams iter with
      | error e =>
        simp only [hstr] at h
        cases h
        rw [List.countP_append, hcz]
        rfl
      | ok stream =>
        simp only [hstr] at h
        rcases hso : consumeChunks env stream.chunks stream.failAfter (ckpt + 1) [] [] none
          with ⟨soEvents, soParts, soTcMap, soFinish, soCkpt, soStatus⟩
        have hsz : soEvents.countP isAgentEnd = 0 := by
          have hz := countP_eq_zero_of_no_agentEnd
            (consumeChunks_no_agentEnd env stream.chunks stream.failAfter (ckpt + 1) [] [] none)
          rwa [hso] at hz
        simp only [hso] at h
        cases soStatus with
        | aborted =>
          cases h
          rw [List.countP_append, List.countP_append, hcz, hsz]
          rfl
        | failed fmsg =>
          cases h
          rw [List.countP_append, List.countP_append, hcz, hsz]
          rfl
        | completed =>
          by_cases hdone : sortedToolCalls soTcMap = [] ∨ soFinish ≠ some "tool_calls"
          · rw [if_pos hdone] at h
            cases h
            rw [List.countP_append, List.countP_append, hcz, hsz]
            rfl
          · rw [if_neg hdone] at h
            rcases htr : execToolCalls env (sortedToolCalls soTcMap)
                (msgs2 ++ [mkAssistantMsg soParts (sortedToolCalls soTcMap)]) soCkpt
              with ⟨tEvents, tMsgs, tCkpt, tStatus⟩
            have htz : tEvents.countP isAgentEnd = 0 := by
              have hz := countP_eq_zero_of_no_agentEnd
                (execToolCalls_no_agentEnd env (sortedToolCalls soTcMap)
                  (msgs2 ++ [mkAssistantMsg soParts (sortedToolCalls soTcMap)]) soCkpt)
              rwa [htr] at hz
            simp only [htr] at h
            cases tStatus with
            | aborted =>
              cases h
              rw [List.countP_append, List.countP_append, List.countP_append, hcz, hsz, htz]
              rfl
            | completed =>
              cases hrec : runPromptLoop env fuel (iter + 1) tCkpt tMsgs with
              | none =>
                rw [hrec] at h
                cases h
              | some p =>
                obtain ⟨evs2, m2⟩ := p
                rw [hrec] at h
                cases h
                have hone := ih _ _ _ _ _ hrec
                rw [List.countP_append, List.countP_append, List.countP_append,
                  List.countP_append, hcz, hsz, htz, hone]
                rfl

/-- C5: every terminating run of `prompt()` (any fuel, any oracle for
abort, steering, streams, tools and compaction — covering natural
finish, abort at any checkpoint, stream-open failure and mid-stream
transport failure) emits exactly one `agent_end` event. -/
theorem C5_single_agent_end (env : LoopEnv) (fuel : Nat) (msgs0 : List Msg)
    (message : String) (evs : List AgentEvent) (m : List Msg)
    (h : runPrompt env fuel msgs0 message = some (evs, m)) :
    evs.countP isAgentEnd = 1 := by
  unfold runPrompt at h
  cases hl : runPromptLoop env fuel 0 0 (msgs0 ++ [.user message]) with
  | none => rw [hl] at h; cases h
  | some p =>
    obtain ⟨evs1, m1⟩ := p
    rw [hl] at h
    cases h
    have hone := runPromptLoop_one_agentEnd env fuel 0 0 _ _ _ hl
    simpa [List.countP_cons, isAgentEnd] using hone

/-- C5 witness: a backend whose first stream finishes immediately with
no tool calls; the run is `turn_start, turn_end, agent_end` and carries
exactly one `agent_end`. -/
theorem C5_witness :
    runPrompt
        { abort := fun _ => false, steers := fun _ => [],
          streams := fun _ => .ok { chunks := [], failAfter := none },
          tools := fun _ => none, parseArgs := fun _ => none, charLen := fun _ => 0,
          baseChars := 0, contextWindow := 128000, summarize := fun _ => .error "" }
        1 [] "hi" =
      some ([{ type := .turnStart }, { type := .turnEnd }, { type := .agentEnd }],
        [Msg.user "hi", Msg.assistant none []]) ∧
    List.countP isAgentEnd
        [{ type := .turnStart }, { type := .turnEnd }, { type := .agentEnd }] = 1 :=
  ⟨by decide,
    C5_single_agent_end
      { abort := fun _ => false, steers := fun _ => [],
        streams := fun _ => .ok { chunks := [], failAfter := none },
        tools := fun _ => none, parseArgs := fun _ => none, charLen := fun _ => 0,
        baseChars := 0, contextWindow := 128000, summarize := fun _ => .error "" }
      1 [] "hi"
      [{ type := .turnStart }, { type := .turnEnd }, { type := .agentEnd }]
      [Msg.user "hi", Msg.assistant none []] (by decide)⟩

/-! ## C2: main theorems -/

/-- C2 counterexample: (1) the Read tool emits the reference `1:0` for
the empty line of the file `"\n"`, yet the Edit tool rejects that
reference on the unchanged file (the edit search skips empty lines), so
the claim's success half fails; (2) `foo` and `al` share the line hash
`65`, so after the file `"foo\n"` is changed externally to `"al\n"` the
same edit `1:65` still succeeds — the claim's failure half fails too. -/
theorem C2_counterexample :
    readRefs "\n".data = [(1, ['0'], [])] ∧
    (editExecute "/f" "1:0".data "x".data (.ok "\n".data) none).1.isError = true ∧
    (editExecute "/f" "1:0".data "x".data (.ok "\n".data) none).2 = none ∧
    readRefs "foo\n".data = [(1, ['6', '5'], "foo".data)] ∧
    hashLine "al".data = hashLine "foo".data ∧
    "al".data ≠ "foo".data ∧
    editExecute "/f" "1:65".data "x".data (.ok "al\n".data) none =
      ({ output := "Edit applied successfully." }, some "x\n".data) :=
  ⟨by decide, by decide, by decide, by decide, by decide, by decide, by decide⟩

/-- C2 (amended): for every file and every line reference the Read tool
emitted for a NON-EMPTY line of that file, an Edit call with non-empty
`new_text` on the unchanged file using that reference succeeds and
replaces only that line (the new file is the line list with that one
entry replaced by `new_text`, keeping a trailing newline exactly when
the original line had one); and if the line at that number has been
changed externally so that it is missing, empty, or its recomputed hash
differs from the reference hash, the same Edit call fails with an error
result and writes nothing.  (The first conjunct ties the reference to
what the Read tool actually emits for line `i + 1`.) -/
theorem C2_read_then_edit (text : List Char) (i : Nat) (hi : i < (splitLines text).length)
    (newText : List Char) (hnt : newText ≠ []) (filePath : String) (hfp : filePath ≠ "") :
    (readRefs text).getD i (0, [], []) =
      (i + 1, hashLine (rstripNl ((splitLines text).getD i [])),
        rstripNl ((splitLines text).getD i [])) ∧
    (rstripNl ((splitLines text).getD i []) ≠ [] →
      editExecute filePath
          (readRefString (i + 1) ((splitLines text).getD i [])) newText (.ok text) none =
        ({ output := "Edit applied successfully." }, some
          (((splitLines text).set i
            (newText ++ if endsWithNl ((splitLines text).getD i []) then ['\n'] else [])).flatten))) ∧
    (∀ (text2 : List Char) (writeErr : Option String),
      ¬ (i < (splitLines text2).length ∧ rstripNl ((splitLines text2).getD i []) ≠ [] ∧
          hashLine (rstripNl ((splitLines text2).getD i [])) =
            hashLine (rstripNl ((splitLines text).getD i []))) →
      (editExecute filePath (readRefString (i + 1) ((splitLines text).getD i []))
          newText (.ok text2) writeErr).1.isError = true ∧
      (editExecute filePath (readRefString (i + 1) ((splitLines text).getD i []))
          newText (.ok text2) writeErr).2 = none) := by
  have hgd : (splitLines text).getD i [] = (splitLines text)[i] := by
    simp [List.getD_eq_getElem?_getD, List.getElem?_eq_getElem hi]
  have hrefeq : readRefString (i + 1) ((splitLines text).getD i []) =
      natDigits (i + 1) ++ ':' :: hashLine (rstripNl ((splitLines text).getD i [])) := by
    simp [readRefString]
  refine ⟨?_, ?_, ?_⟩
  · have hlen : i < (readRefs text).length := by
      simpa [readRefs] using hi
    rw [List.getD_eq_getElem?_getD, List.getElem?_eq_getElem hlen]
    simp [readRefs, hgd, List.getElem?_eq_getElem hi]
  · intro hcne
    rw [hrefeq, editExecute_single filePath hfp (i + 1) (by omega) _
      (hashLine_ne_nil _) (hashLine_hex _) newText hnt text none]
    rw [findSingleIdx_eq _ _ _ (by omega)]
    have hcond : (i + 1) - 1 < (splitLines text).length ∧
        rstripNl ((splitLines text).getD ((i + 1) - 1) []) ≠ [] ∧
        hashLine (rstripNl ((splitLines text).getD ((i + 1) - 1) [])) =
          hashLine (rstripNl ((splitLines text).getD i [])) := by
      simp only [Nat.add_sub_cancel]
      exact ⟨hi, hcne, by trivial⟩
    rw [if_pos hcond]
    simp
  · intro text2 writeErr hncond
    rw [hrefeq, editExecute_single filePath hfp (i + 1) (by omega) _
      (hashLine_ne_nil _) (hashLine_hex _) newText hnt text2 writeErr]
    rw [findSingleIdx_eq _ _ _ (by omega)]
    have hcond2 : ¬ ((i + 1) - 1 < (splitLines text2).length ∧
        rstripNl ((splitLines text2).getD ((i + 1) - 1) []) ≠ [] ∧
        hashLine (rstripNl ((splitLines text2).getD ((i + 1) - 1) [])) =
          hashLine (rstripNl ((splitLines text).getD i []))) := by
      simp only [Nat.add_sub_cancel]
      exact hncond
    rw [if_neg hcond2]
    simp

/-- C2 witness: reading `foo\nbar\n` and editing line 1 with its emitted
reference replaces exactly that line. -/
theorem C2_witness :
    editExecute "/f" (readRefString 1 ((splitLines "foo\nbar\n".data).getD 0 [])) "baz".data
        (.ok "foo\nbar\n".data) none =
      ({ output := "Edit applied successfully." }, some
        (((splitLines "foo\nbar\n".data).set 0
          ("baz".data ++
            if endsWithNl ((splitLines "foo\nbar\n".data).getD 0 []) then ['\n']
            else [])).flatten)) :=
  (C2_read_then_edit "foo\nbar\n".data 0 (by decide) "baz".data (by decide) "/f"
    (by decide)).2.1 (by decide)

/-! ## C8: exception escape paths of `execute`

The spec rule behind C8 is "never raise out of `execute`".  Two source
paths violate it and are modelled here exactly:

* `ReadTool.execute` and `EditTool.execute` guard `Path.read_text()`
  with handlers for `FileNotFoundError` and `OSError` only; a file
  whose bytes are not valid UTF-8 raises `UnicodeDecodeError` (a
  `ValueError`), which escapes `execute`.
* `CanvasTool.execute` awaits `set_content`, `goto`, `evaluate`,
  `screenshot` and `_close` outside any `try`; only `_ensure_page()` is
  guarded, so a failing page operation escapes `execute`.

In the definitions below `.error m` stands for an exception with text
`m` escaping `execute` — no `ToolResult` is returned. -/

/-- Outcome of `Path(file_path).read_text()` over the full exception
set, including decode failures (which the tools do not catch). -/
inductive PyReadOutcome where
  | ok (text : List Char) : PyReadOutcome
  | fileNotFound : PyReadOutcome
  | osError (msg : String) : PyReadOutcome
  | unicodeDecodeError (msg : String) : PyReadOutcome

/-- The `for file_path in file_paths` loop of `ReadTool.execute` over
the full outcome set: the handled exceptions become per-file error
entries, a decode failure escapes and discards the whole call. -/
def readEntriesFull (fs : String → PyReadOutcome) (offset : Nat) (limit : Option Nat) :
    List String → Except String (List (String × String))
  | [] => .ok []
  | p :: rest =>
    if p = "" then
      (readEntriesFull fs offset limit rest).map
        (fun es => (p, "Error: Empty file path provided.") :: es)
    else
      match fs p with
      | .unicodeDecodeError m => .error m
      | .ok text =>
        (readEntriesFull fs offset limit rest).map
          (fun es => (p, readFileEntry p (.ok text) offset limit) :: es)
      | .fileNotFound =>
        (readEntriesFull fs offset limit rest).map
          (fun es => (p, readFileEntry p .notFound offset limit) :: es)
      | .osError e =>
        (readEntriesFull fs offset limit rest).map
          (fun es => (p, readFileEntry p (.osErr e) offset limit) :: es)

/-- `ReadTool.execute` over the full `read_text` outcome set. -/
def readExecuteFull (dump : List (String × String) → String) (fs : String → PyReadOutcome)
    (filePaths : List String) (offset : Nat) (limit : Option Nat) : Except String ToolResult :=
  if filePaths = [] then .ok { output := "No file_paths provided.", isError := true }
  else
    match readEntriesFull fs offset limit filePaths with
    | .error m => .error m
    | .ok entries => .ok { output := dump entries }

/-- `CanvasTool.execute` environment: whether `self._page` is set, the
guarded `_ensure_page()` call, and the unguarded playwright page
operations (`.error` = the awaited operation raised). -/
structure CanvasEnv where
  pageOpen : Bool
  ensurePage : Except String Unit
  setContent : String → Except String Unit
  goto : String → Except String Unit
  evaluate : String → Except String (Option String)
  screenshot : Except String String
  close : Except String Unit

/-- `CanvasTool.execute`.  Only `_ensure_page` is inside a `try` (its
failure becomes a `Failed to start browser` result); every page
operation that raises escapes `execute`. -/
def canvasExecute (env : CanvasEnv) (args : List (String × String)) :
    Except String ToolResult :=
  match argsGet args "action" with
  | some "render" =>
    let html := (argsGet args "html").getD ""
    match env.ensurePage with
    | .error e => .ok { output := "Failed to start browser: " ++ e, isError := true }
    | .ok _ =>
      match env.setContent html with
      | .error e => .error e
      | .ok _ => .ok { output := "Canvas updated with HTML content." }
  | some "navigate" =>
    let url := (argsGet args "url").getD ""
    if url = "" then .ok { output := "No url provided.", isError := true }
    else
      match env.ensurePage with
      | .error e => .ok { output := "Failed to start browser: " ++ e, isError := true }
      | .ok _ =>
        match env.goto url with
        | .error e => .error e
        | .ok _ => .ok { output := "Canvas navigated to " ++ url }
  | some "execute_js" =>
    let js := (argsGet args "js").getD ""
    if env.pageOpen = false then .ok { output := "No canvas open.", isError := true }
    else
      match env.evaluate js with
      | .error e => .error e
      | .ok r => .ok { output := r.getD "undefined" }
  | some "screenshot" =>
    if env.pageOpen = false then .ok { output := "No canvas open.", isError := true }
    else
      match env.screenshot with
      | .error e => .error e
      | .ok data => .ok { output := data }
  | some "dismiss" =>
    match env.close with
    | .error e => .error e
    | .ok _ => .ok { output := "Canvas dismissed." }
  | other =>
    .ok { output := "Unknown canvas action: " ++
            (match other with
             | some a => a
             | none => "None"),
          isError := true }

/-- C8: the claim says every built-in tool's `execute` returns a
`ToolResult` and never raises an exception.  The parameter-error half is
right (`toolsParamErrors`, third conjunct below), and the never-raise
rule is clearly the intended discipline — every other tool wraps its
body in exception handlers and the turn loop guards `tool.execute` with
a catch-all — but the code violates it: reading a non-UTF-8 file raises
`UnicodeDecodeError` through the `FileNotFoundError`/`OSError`-only
handlers of the read (and edit) tools, and the canvas tool's page
operations are awaited outside any `try`, so a failing navigation raises
out of `execute`.  Both escapes are evaluated at concrete failing
inputs: `.error` means an exception escapes `execute` and no
`ToolResult` is returned. -/
theorem C8_execute_can_raise :
    readExecuteFull (fun _ => "") (fun _ => .unicodeDecodeError "invalid start byte")
        ["/data/blob.bin"] 1 none =
      .error "invalid start byte" ∧
    canvasExecute
        { pageOpen := true, ensurePage := .ok (), setContent := fun _ => .ok (),
          goto := fun _ => .error "net::ERR_NAME_NOT_RESOLVED",
          evaluate := fun _ => .ok none, screenshot := .ok "", close := .ok () }
        [("action", "navigate"), ("url", "http://unresolvable.example")] =
      .error "net::ERR_NAME_NOT_RESOLVED" ∧
    (∀ o, bashExecute "" o = { output := "No command provided.", isError := true }) :=
  ⟨rfl, rfl, fun _ => rfl⟩

end Zac
